import Mathlib

/-!
Verification development for the Olist ETL pipeline and data-quality monitor
(`etl_olist_sqlalchemy.py`, `ingestao_dados.py`, `dq_monitor_olist.py`).

The business logic of the pipeline lives in SQL statements executed against
PostgreSQL.  This file gives a shallow embedding of those statements:

* tables are lists of rows (records), nullable SQL columns are `Option`;
* `INSERT ... SELECT ... ON CONFLICT (k) DO UPDATE SET ...` is embedded by
  `pgUpsert`, which follows the documented PostgreSQL semantics: source rows
  are processed one at a time; a source row that conflicts with a row already
  inserted or updated by the same command raises the cardinality-violation
  error "ON CONFLICT DO UPDATE command cannot affect row a second time"
  (embedded as `Except.error`); a failed statement's transaction is rolled
  back, so the table keeps its prior contents (`txTable`);
* `ON CONFLICT DO NOTHING` is embedded by `pgUpsertNothing` (it never errors);
* `SELECT DISTINCT` is `List.dedup` (SQL `DISTINCT` removes duplicate full
  rows, not duplicate keys);
* SQL three-valued logic is embedded at each use site: a comparison or `IN`
  test involving `NULL` is not true (`sqlTsLe`, `sqlGtZero`, ...), `COALESCE`
  is `coalesce`, aggregates over zero rows are `none`, and `SUM`/`AVG` of an
  expression ignore `NULL` inputs exactly where the SQL does;
* `DATE(timestamp)` truncates a timestamp to its calendar date
  (`Timestamp.toDate`), and `NULL` maps to `NULL`.

Natural-key columns are modelled as non-null (`String`/`Nat`): the dimension
and fact key columns are primary keys in the warehouse, and the specification
declares row-level behaviour for null natural keys undefined.
-/

namespace Olist

/-- SQL `COALESCE(a, b)`: `a` if `a` is not null, otherwise `b`. -/
def coalesce {α : Type} : Option α → Option α → Option α
  | some a, _ => some a
  | none, b => b

/-- A calendar date (`DATE` value): year, month, day. -/
structure Date where
  year : Nat
  month : Nat
  day : Nat
deriving DecidableEq, Repr

/-- A `TIMESTAMP` value: calendar date plus time of day. -/
structure Timestamp where
  year : Nat
  month : Nat
  day : Nat
  hour : Nat
  minute : Nat
  second : Nat
deriving DecidableEq, Repr

/-- `DATE(ts)`: truncate a timestamp to its calendar date, discarding the
time-of-day component. -/
def Timestamp.toDate (t : Timestamp) : Date :=
  { year := t.year, month := t.month, day := t.day }

/-- SQL `<=` on two timestamps, lexicographic on the six components. -/
def Timestamp.leb (a b : Timestamp) : Bool :=
  if a.year ≠ b.year then decide (a.year < b.year)
  else if a.month ≠ b.month then decide (a.month < b.month)
  else if a.day ≠ b.day then decide (a.day < b.day)
  else if a.hour ≠ b.hour then decide (a.hour < b.hour)
  else if a.minute ≠ b.minute then decide (a.minute < b.minute)
  else decide (a.second ≤ b.second)

/-- SQL `a <= b` on nullable timestamps: `NULL` on either side is not true. -/
def sqlTsLe (a b : Option Timestamp) : Bool :=
  match a, b with
  | some x, some y => Timestamp.leb x y
  | _, _ => false

/-- Gregorian leap-year test. -/
def isLeap (y : Nat) : Bool :=
  (y % 4 == 0 && y % 100 != 0) || (y % 400 == 0)

/-- Cumulative days before each month (non-leap year). -/
def daysBeforeMonth (m : Nat) : Nat :=
  [0, 0, 31, 59, 90, 120, 151, 181, 212, 243, 273, 304, 334].getD m 0

/-- Day of year, 1-based (`EXTRACT(DOY ...)`). -/
def dayOfYear (d : Date) : Nat :=
  daysBeforeMonth d.month + d.day + (if isLeap d.year && d.month > 2 then 1 else 0)

/-- Days since 1970-01-01 (civil-calendar day number). -/
def dayNumber (dt : Date) : Int :=
  let y : Int := if dt.month ≤ 2 then (dt.year : Int) - 1 else (dt.year : Int)
  let era : Int := (if 0 ≤ y then y else y - 399) / 400
  let yoe : Int := y - era * 400
  let mp : Int := ((dt.month : Int) + 9) % 12
  let doy : Int := (153 * mp + 2) / 5 + (dt.day : Int) - 1
  let doe : Int := yoe * 365 + yoe / 4 - yoe / 100 + doy
  era * 146097 + doe - 719468

/-- PostgreSQL `EXTRACT(DOW ...)`: 0 = Sunday .. 6 = Saturday. -/
def pgDow (d : Date) : Nat :=
  ((dayNumber d + 4) % 7).toNat

/-- ISO day of week: 1 = Monday .. 7 = Sunday. -/
def isoDow (d : Date) : Nat :=
  ((dayNumber d + 3) % 7).toNat + 1

/-- Number of ISO weeks (52 or 53) in a year. -/
def isoWeeksInYear (y : Nat) : Nat :=
  let p : Nat → Nat := fun z => (z + z / 4 - z / 100 + z / 400) % 7
  if p y == 4 || p (y - 1) == 3 then 53 else 52

/-- PostgreSQL `EXTRACT(WEEK ...)`: ISO 8601 week number. -/
def isoWeek (d : Date) : Nat :=
  let w := (dayOfYear d + 10 - isoDow d) / 7
  if w = 0 then isoWeeksInYear (d.year - 1)
  else if w = 53 && isoWeeksInYear d.year == 52 then 1
  else w

/-! ## Staging rows (`olist_stage.*`), with the columns the SQL reads -/

/-- A row of `olist_stage.raw_orders`. -/
structure RawOrder where
  order_id : String
  customer_id : String
  order_status : Option String
  order_purchase_timestamp : Option Timestamp
  order_approved_at : Option Timestamp
  order_delivered_customer_date : Option Timestamp
  order_estimated_delivery_date : Option Timestamp
deriving DecidableEq, Repr

/-- A row of `olist_stage.raw_order_items`. -/
structure RawOrderItem where
  order_id : String
  order_item_id : Nat
  product_id : String
  seller_id : String
  shipping_limit_date : Option Timestamp
  price : Option ℚ
  freight_value : Option ℚ
deriving DecidableEq, Repr

/-- A row of `olist_stage.raw_customers`. -/
structure RawCustomer where
  customer_id : String
  customer_unique_id : Option String
  customer_zip_code_prefix : Option Nat
  customer_city : Option String
  customer_state : Option String
deriving DecidableEq, Repr

/-- A row of `olist_stage.raw_sellers`. -/
structure RawSeller where
  seller_id : String
  seller_zip_code_prefix : Option Nat
  seller_city : Option String
  seller_state : Option String
deriving DecidableEq, Repr

/-- A row of `olist_stage.raw_products`. -/
structure RawProduct where
  product_id : String
  product_category_name : Option String
  product_weight_g : Option ℚ
  product_length_cm : Option ℚ
  product_height_cm : Option ℚ
  product_width_cm : Option ℚ
deriving DecidableEq, Repr

/-- A row of `olist_stage.raw_category_translation`. -/
structure RawCategoryTranslation where
  product_category_name : String
  product_category_name_english : Option String
deriving DecidableEq, Repr

/-- A row of `olist_stage.raw_payments`. -/
structure RawPayment where
  order_id : String
  payment_sequential : Nat
  payment_type : Option String
  payment_installments : Option Nat
  payment_value : Option ℚ
deriving DecidableEq, Repr

/-- A row of `olist_stage.raw_reviews` (only the two timestamp columns the
ETL reads). -/
structure RawReview where
  review_creation_date : Option Timestamp
  review_answer_timestamp : Option Timestamp
deriving DecidableEq, Repr

/-- The staging area: one list per staging table loaded by the pipeline. -/
structure StagingDB where
  raw_orders : List RawOrder
  raw_order_items : List RawOrderItem
  raw_customers : List RawCustomer
  raw_sellers : List RawSeller
  raw_products : List RawProduct
  raw_category_translation : List RawCategoryTranslation
  raw_payments : List RawPayment
  raw_reviews : List RawReview
deriving DecidableEq, Repr

/-! ## Warehouse rows (`olist_dw.*`) -/

/-- A row of `olist_dw.dim_date` (conflict target `date_id`). -/
structure DimDate where
  date_id : Date
  year : Nat
  quarter : Nat
  month : Nat
  day : Nat
  week : Nat
  dow : Nat
deriving DecidableEq, Repr

/-- A row of `olist_dw.dim_customer` (conflict target `customer_id`,
surrogate key `customer_sk`). -/
structure DimCustomer where
  customer_sk : Nat
  customer_id : String
  customer_unique_id : Option String
  zip_prefix : Option Nat
  city : Option String
  state : Option String
deriving DecidableEq, Repr

/-- A row of `olist_dw.dim_seller` (conflict target `seller_id`). -/
structure DimSeller where
  seller_sk : Nat
  seller_id : String
  zip_prefix : Option Nat
  city : Option String
  state : Option String
deriving DecidableEq, Repr

/-- A row of `olist_dw.dim_product` (conflict target `product_id`). -/
structure DimProduct where
  product_sk : Nat
  product_id : String
  category_name : Option String
  category_name_en : Option String
  weight_g : Option ℚ
  length_cm : Option ℚ
  height_cm : Option ℚ
  width_cm : Option ℚ
deriving DecidableEq, Repr

/-- A row of `olist_dw.fact_order_item` (conflict target
`(order_id, order_item_id)`). -/
structure FactOrderItem where
  order_id : String
  order_item_id : Nat
  customer_sk : Nat
  seller_sk : Nat
  product_sk : Nat
  purchase_date_id : Option Date
  approved_date_id : Option Date
  shipping_limit_date_id : Option Date
  delivered_customer_date_id : Option Date
  estimated_delivery_date_id : Option Date
  order_status : Option String
  price : Option ℚ
  freight_value : Option ℚ
deriving DecidableEq, Repr

/-- A row of `olist_dw.fact_payment` (conflict target
`(order_id, payment_sequential)`). -/
structure FactPayment where
  order_id : String
  payment_sequential : Nat
  payment_type : Option String
  payment_installments : Option Nat
  payment_value : Option ℚ
  purchase_date_id : Option Date
deriving DecidableEq, Repr

/-- The dimension tables acted on by the Dimension Resolver. -/
structure DWDims where
  dim_date : List DimDate
  dim_customer : List DimCustomer
  dim_seller : List DimSeller
  dim_product : List DimProduct
deriving DecidableEq, Repr

/-! ## PostgreSQL `INSERT ... ON CONFLICT` semantics -/

section PgUpsert

variable {κ ρ σ : Type} [DecidableEq κ]
variable (keyr : ρ → κ) (keys : σ → κ) (ins : Nat → σ → ρ) (merge : σ → ρ → ρ)

/-- The per-row effect of `DO UPDATE` on the table: rows matching the
conflicting source row's key are replaced by the merged row. -/
def updRow (r : σ) (t : ρ) : ρ :=
  if keyr t = keys r then merge r t else t

/-- The table produced by `INSERT ... ON CONFLICT (k) DO UPDATE` when the
statement succeeds: source rows processed in order; a conflicting row is
merged into the existing row, a fresh row is appended with the next
surrogate-key value. -/
def pgUpsertFun : List ρ → Nat → List σ → List ρ
  | table, _, [] => table
  | table, sk, r :: rs =>
    if keys r ∈ table.map keyr then
      pgUpsertFun (table.map (updRow keyr keys merge r)) sk rs
    else
      pgUpsertFun (table ++ [ins sk r]) (sk + 1) rs

/-- `INSERT ... ON CONFLICT (k) DO UPDATE` with PostgreSQL's cardinality
check: `touched` is the set of keys already inserted or updated by this
command; a source row conflicting with one of them raises the
cardinality-violation error and the statement fails. -/
def pgUpsertGo : List ρ → Nat → List κ → List σ → Except String (List ρ)
  | table, _, _, [] => Except.ok table
  | table, sk, touched, r :: rs =>
    if keys r ∈ table.map keyr then
      if keys r ∈ touched then
        Except.error "ON CONFLICT DO UPDATE command cannot affect row a second time"
      else
        pgUpsertGo (table.map (updRow keyr keys merge r)) sk (keys r :: touched) rs
    else
      pgUpsertGo (table ++ [ins sk r]) (sk + 1) (keys r :: touched) rs

/-- A complete `INSERT ... ON CONFLICT (k) DO UPDATE` statement. -/
def pgUpsert (table : List ρ) (sk : Nat) (src : List σ) : Except String (List ρ) :=
  pgUpsertGo keyr keys ins merge table sk [] src

end PgUpsert

section PgUpsertNothing

variable {κ ρ σ : Type} [DecidableEq κ]
variable (keyr : ρ → κ) (keys : σ → κ) (ins : σ → ρ)

/-- `INSERT ... ON CONFLICT (k) DO NOTHING`: conflicting source rows are
skipped (also against rows inserted by the same command), so the statement
never errors. -/
def pgUpsertNothing : List ρ → List σ → List ρ
  | table, [] => table
  | table, r :: rs =>
    if keys r ∈ table.map keyr then
      pgUpsertNothing table rs
    else
      pgUpsertNothing (table ++ [ins r]) rs

end PgUpsertNothing

/-- The effect of a single-statement transaction on its table: the new table
if the statement succeeded, the unchanged table if it failed (rollback). -/
def txTable {ρ : Type} (r : Except String (List ρ)) (orig : List ρ) : List ρ :=
  match r with
  | Except.ok t => t
  | Except.error _ => orig

/-- The row predicate "has natural key `k`". -/
def keyP {κ ρ : Type} [DecidableEq κ] (keyr : ρ → κ) (k : κ) : ρ → Bool :=
  fun t => decide (keyr t = k)

/-- The fill-gap column rule of the specification, column-wise: the stored
value is the incoming value when the incoming value is non-null, and the
existing value when the incoming value is null. -/
def fillsGap {α : Type} (incoming existing stored : Option α) : Prop :=
  (incoming ≠ none → stored = incoming) ∧ (incoming = none → stored = existing)

/-! ## ETL: dimension upserts (`upsert_dim_*`) -/

/-- The derived `dim_date` row for a date: all non-key columns are pure
functions of the date (`EXTRACT(YEAR|MONTH|DAY|WEEK|DOW ...)` and the
quarter formula `((month - 1)/3 + 1)`). -/
def mkDimDate (d : Date) : DimDate :=
  { date_id := d
    year := d.year
    quarter := (d.month - 1) / 3 + 1
    month := d.month
    day := d.day
    week := isoWeek d
    dow := pgDow d }

/-- The `WITH d AS (...)` source of `upsert_dim_date`: the distinct calendar
dates of the seven non-null timestamp columns across staging. -/
def date_source (stg : StagingDB) : List Date :=
  ((stg.raw_orders.filterMap fun o => Option.map Timestamp.toDate o.order_purchase_timestamp)
    ++ (stg.raw_orders.filterMap fun o => Option.map Timestamp.toDate o.order_approved_at)
    ++ (stg.raw_orders.filterMap fun o => Option.map Timestamp.toDate o.order_delivered_customer_date)
    ++ (stg.raw_orders.filterMap fun o => Option.map Timestamp.toDate o.order_estimated_delivery_date)
    ++ (stg.raw_order_items.filterMap fun i => Option.map Timestamp.toDate i.shipping_limit_date)
    ++ (stg.raw_reviews.filterMap fun r => Option.map Timestamp.toDate r.review_creation_date)
    ++ (stg.raw_reviews.filterMap fun r => Option.map Timestamp.toDate r.review_answer_timestamp)).dedup

/-- `upsert_dim_date`: insert one row per distinct date,
`ON CONFLICT (date_id) DO NOTHING`. -/
def upsert_dim_date (table : List DimDate) (stg : StagingDB) : List DimDate :=
  pgUpsertNothing DimDate.date_id id mkDimDate table (date_source stg)

/-- The `DO UPDATE SET` of `upsert_dim_customer`: every non-key column is
`COALESCE(EXCLUDED.col, existing.col)`. -/
def custMerge (r : RawCustomer) (t : DimCustomer) : DimCustomer :=
  { t with
    customer_unique_id := coalesce r.customer_unique_id t.customer_unique_id
    zip_prefix := coalesce ( RawCustomer.customer_zip_code_prefix r) ( DimCustomer.zip_prefix t)
    city := coalesce r.customer_city t.city
    state := coalesce r.customer_state t.state }

/-- A freshly inserted `dim_customer` row (surrogate key from the sequence). -/
def custIns (sk : Nat) (r : RawCustomer) : DimCustomer :=
  { customer_sk := sk
    customer_id := r.customer_id
    customer_unique_id := r.customer_unique_id
    zip_prefix := RawCustomer.customer_zip_code_prefix r
    city := r.customer_city
    state := r.customer_state }

/-- `upsert_dim_customer`: `INSERT ... SELECT DISTINCT ... FROM raw_customers
ON CONFLICT (customer_id) DO UPDATE SET col = COALESCE(EXCLUDED.col, dim.col)`. -/
def upsert_dim_customer (table : List DimCustomer) (sk : Nat) (rows : List RawCustomer) :
    Except String (List DimCustomer) :=
  pgUpsert DimCustomer.customer_id RawCustomer.customer_id custIns custMerge table sk rows.dedup

/-- The `DO UPDATE SET` of `upsert_dim_seller`. -/
def sellMerge (r : RawSeller) (t : DimSeller) : DimSeller :=
  { t with
    zip_prefix := coalesce ( RawSeller.seller_zip_code_prefix r) ( DimSeller.zip_prefix t)
    city := coalesce r.seller_city t.city
    state := coalesce r.seller_state t.state }

/-- A freshly inserted `dim_seller` row. -/
def sellIns (sk : Nat) (r : RawSeller) : DimSeller :=
  { seller_sk := sk
    seller_id := r.seller_id
    zip_prefix := RawSeller.seller_zip_code_prefix r
    city := r.seller_city
    state := r.seller_state }

/-- `upsert_dim_seller`: `INSERT ... SELECT DISTINCT ... FROM raw_sellers
ON CONFLICT (seller_id) DO UPDATE SET col = COALESCE(EXCLUDED.col, dim.col)`. -/
def upsert_dim_seller (table : List DimSeller) (sk : Nat) (rows : List RawSeller) :
    Except String (List DimSeller) :=
  pgUpsert DimSeller.seller_id RawSeller.seller_id sellIns sellMerge table sk rows.dedup

/-- A projected source row of `upsert_dim_product` (the `SELECT DISTINCT`
column list: product attributes plus the left-joined English category name). -/
structure ProductSrcRow where
  product_id : String
  category_name : Option String
  category_name_en : Option String
  weight_g : Option ℚ
  length_cm : Option ℚ
  height_cm : Option ℚ
  width_cm : Option ℚ
deriving DecidableEq, Repr

/-- The `FROM raw_products p LEFT JOIN raw_category_translation t ON
t.product_category_name = p.product_category_name` source of
`upsert_dim_product`, after `SELECT DISTINCT`.  A `NULL` category matches no
translation; a product with no matching translation keeps a `NULL` English
name; each matching translation row yields one joined row. -/
def product_src (products : List RawProduct) (trans : List RawCategoryTranslation) :
    List ProductSrcRow :=
  (products.flatMap fun p =>
    let ms : List RawCategoryTranslation :=
      match p.product_category_name with
      | none => []
      | some c => trans.filter fun t => decide (t.product_category_name = c)
    let base : Option String → ProductSrcRow := fun en =>
      { product_id := p.product_id
        category_name := p.product_category_name
        category_name_en := en
        weight_g := p.product_weight_g
        length_cm := p.product_length_cm
        height_cm := p.product_height_cm
        width_cm := p.product_width_cm }
    match ms with
    | [] => [base none]
    | _ => ms.map fun t => base t.product_category_name_english).dedup

/-- The `DO UPDATE SET` of `upsert_dim_product`. -/
def prodMerge (r : ProductSrcRow) (t : DimProduct) : DimProduct :=
  { t with
    category_name := coalesce r.category_name t.category_name
    category_name_en := coalesce r.category_name_en t.category_name_en
    weight_g := coalesce r.weight_g t.weight_g
    length_cm := coalesce r.length_cm t.length_cm
    height_cm := coalesce r.height_cm t.height_cm
    width_cm := coalesce r.width_cm t.width_cm }

/-- A freshly inserted `dim_product` row. -/
def prodIns (sk : Nat) (r : ProductSrcRow) : DimProduct :=
  { product_sk := sk
    product_id := r.product_id
    category_name := r.category_name
    category_name_en := r.category_name_en
    weight_g := r.weight_g
    length_cm := r.length_cm
    height_cm := r.height_cm
    width_cm := r.width_cm }

/-- `upsert_dim_product`: left-enriched distinct products,
`ON CONFLICT (product_id) DO UPDATE SET col = COALESCE(EXCLUDED.col, dim.col)`. -/
def upsert_dim_product (table : List DimProduct) (sk : Nat) (stg : StagingDB) :
    Except String (List DimProduct) :=
  pgUpsert DimProduct.product_id ProductSrcRow.product_id prodIns prodMerge table sk
    (product_src stg.raw_products stg.raw_category_translation)

/-- The Dimension Resolver: the four dimension upserts in pipeline order
(date, customer, seller, product).  A failed statement rolls back and, as in
the Python driver, aborts the remaining steps; statements already committed
keep their effect. -/
def dimension_resolver (stg : StagingDB) (skc sks skp : Nat) (st : DWDims) : DWDims :=
  let st1 : DWDims := { st with dim_date := upsert_dim_date st.dim_date stg }
  match upsert_dim_customer st1.dim_customer skc stg.raw_customers with
  | Except.error _ => st1
  | Except.ok dc =>
    let st2 : DWDims := { st1 with dim_customer := dc }
    match upsert_dim_seller st2.dim_seller sks stg.raw_sellers with
    | Except.error _ => st2
    | Except.ok dsl =>
      let st3 : DWDims := { st2 with dim_seller := dsl }
      match upsert_dim_product st3.dim_product skp stg with
      | Except.error _ => st3
      | Except.ok dpr => { st3 with dim_product := dpr }

/-! ## ETL: fact builder (`insert_fact_items`, `insert_fact_payments`) -/

/-- The composite natural key of a fact order-item row. -/
def factItemKey (t : FactOrderItem) : String × Nat :=
  (t.order_id, t.order_item_id)

/-- The rows the `insert_fact_items` `SELECT` derives from one staging
order item: the inner-join chain over staging orders, customers, sellers,
products and the three dimension tables.  An item whose referenced parent is
missing anywhere in the chain contributes no rows. -/
def item_fact_rows (i : RawOrderItem) (orders : List RawOrder)
    (customers : List RawCustomer) (sellers : List RawSeller)
    (products : List RawProduct) (dc : List DimCustomer) (ds : List DimSeller)
    (dp : List DimProduct) : List FactOrderItem :=
  (orders.filter fun o => decide (o.order_id = i.order_id)).flatMap fun o =>
  (customers.filter fun c => decide (c.customer_id = o.customer_id)).flatMap fun c =>
  (sellers.filter fun s => decide (s.seller_id = i.seller_id)).flatMap fun s =>
  (products.filter fun p => decide (p.product_id = i.product_id)).flatMap fun p =>
  (dc.filter fun d => decide (d.customer_id = c.customer_id)).flatMap fun dcr =>
  (ds.filter fun d => decide (d.seller_id = s.seller_id)).flatMap fun dsr =>
  (dp.filter fun d => decide (d.product_id = p.product_id)).map fun dpr =>
    { order_id := i.order_id
      order_item_id := i.order_item_id
      customer_sk := dcr.customer_sk
      seller_sk := dsr.seller_sk
      product_sk := dpr.product_sk
      purchase_date_id := Option.map Timestamp.toDate o.order_purchase_timestamp
      approved_date_id := Option.map Timestamp.toDate o.order_approved_at
      shipping_limit_date_id := Option.map Timestamp.toDate i.shipping_limit_date
      delivered_customer_date_id := Option.map Timestamp.toDate o.order_delivered_customer_date
      estimated_delivery_date_id := Option.map Timestamp.toDate o.order_estimated_delivery_date
      order_status := o.order_status
      price := i.price
      freight_value := i.freight_value }

/-- The full `SELECT` of `insert_fact_items` over the staging order items. -/
def fact_items_select (stg : StagingDB) (dc : List DimCustomer) (ds : List DimSeller)
    (dp : List DimProduct) : List FactOrderItem :=
  stg.raw_order_items.flatMap fun i =>
    item_fact_rows i stg.raw_orders stg.raw_customers stg.raw_sellers stg.raw_products dc ds dp

/-- The `DO UPDATE SET` of `insert_fact_items`: price, freight, status and the
delivered date reference are unconditionally replaced; all other columns keep
their stored values. -/
def mergeFactItem (e t : FactOrderItem) : FactOrderItem :=
  { t with
    price := e.price
    freight_value := e.freight_value
    order_status := e.order_status
    delivered_customer_date_id := e.delivered_customer_date_id }

/-- `insert_fact_items`: upsert the selected rows into `fact_order_item`,
`ON CONFLICT (order_id, order_item_id) DO UPDATE`. -/
def insert_fact_items (table : List FactOrderItem) (stg : StagingDB)
    (dc : List DimCustomer) (ds : List DimSeller) (dp : List DimProduct) :
    Except String (List FactOrderItem) :=
  pgUpsert factItemKey factItemKey (fun _ r => r) mergeFactItem table 0
    (fact_items_select stg dc ds dp)

/-- The composite natural key of a fact payment row. -/
def factPayKey (t : FactPayment) : String × Nat :=
  (t.order_id, t.payment_sequential)

/-- The rows the `insert_fact_payments` `SELECT` derives from one staging
payment: the inner join against staging orders. -/
def payment_fact_rows (p : RawPayment) (orders : List RawOrder) : List FactPayment :=
  (orders.filter fun o => decide (o.order_id = p.order_id)).map fun o =>
    { order_id := p.order_id
      payment_sequential := p.payment_sequential
      payment_type := p.payment_type
      payment_installments := p.payment_installments
      payment_value := p.payment_value
      purchase_date_id := Option.map Timestamp.toDate o.order_purchase_timestamp }

/-- The full `SELECT` of `insert_fact_payments`. -/
def fact_payments_select (stg : StagingDB) : List FactPayment :=
  stg.raw_payments.flatMap fun p => payment_fact_rows p stg.raw_orders

/-- The `DO UPDATE SET` of `insert_fact_payments`: type, installments and
value are replaced; `purchase_date_id` keeps its stored value. -/
def mergeFactPayment (e t : FactPayment) : FactPayment :=
  { t with
    payment_type := e.payment_type
    payment_installments := e.payment_installments
    payment_value := e.payment_value }

/-- `insert_fact_payments`: upsert the selected rows into `fact_payment`,
`ON CONFLICT (order_id, payment_sequential) DO UPDATE`. -/
def insert_fact_payments (table : List FactPayment) (stg : StagingDB) :
    Except String (List FactPayment) :=
  pgUpsert factPayKey factPayKey (fun _ r => r) mergeFactPayment table 0
    (fact_payments_select stg)

/-! ## DQ rule engine (`dq_monitor_olist.py`)

Each rule is embedded as a pure function from its row set to its reported
value.  An aggregate over zero rows is `NULL` in SQL (`SUM`/`AVG` return
`NULL`, and `NULL` propagates through `100.0 * _ / COUNT(*)` and
`ROUND(_, 2)` because those operators are strict), embedded as `none`:
a zero-row input yields an undefined result instead of a division error. -/

/-- PostgreSQL `ROUND(x, 2)` on `numeric`: round half away from zero at two
decimal places. -/
def round2 (q : ℚ) : ℚ :=
  (if q < 0 then (-1 : ℚ) else 1) * ((⌊|q| * 100 + 1 / 2⌋ : ℤ) : ℚ) / 100

/-- `100.0 * AVG(score)` over a row set; `NULL` (`none`) on zero rows. -/
def sqlAvg100 {α : Type} (rows : List α) (score : α → ℚ) : Option ℚ :=
  match rows with
  | [] => none
  | _ => some (100 * (rows.map score).sum / (rows.length : ℚ))

/-- `100.0 * SUM(CASE WHEN v IS NOT NULL THEN 1 ELSE 0 END) / COUNT(*)` over
a column; `NULL` on zero rows (`SUM` of nothing is `NULL`). -/
def sqlPctNonNull {α : Type} (vals : List (Option α)) : Option ℚ :=
  match vals with
  | [] => none
  | _ => some (100 * ((vals.countP fun v => v.isSome : Nat) : ℚ) / (vals.length : ℚ))

/-- `SUM` of a nullable numeric column: `NULL` inputs are ignored; the sum of
no non-null inputs is `NULL`. -/
def sqlSumOpt (vs : List (Option ℚ)) : Option ℚ :=
  match vs.filterMap id with
  | [] => none
  | xs => some xs.sum

/-- SQL `a + b` on nullable numerics: `NULL` if either side is `NULL`. -/
def sqlAdd (a b : Option ℚ) : Option ℚ :=
  match a, b with
  | some x, some y => some (x + y)
  | _, _ => none

/-- SQL `v > 0` on a nullable numeric: not true when `NULL`. -/
def sqlGtZero (v : Option ℚ) : Bool :=
  match v with
  | some x => decide (0 < x)
  | none => false

/-- SQL `v >= 0` on a nullable numeric: not true when `NULL`. -/
def sqlGeZero (v : Option ℚ) : Bool :=
  match v with
  | some x => decide (0 ≤ x)
  | none => false

/-- `completeness()`: the six completeness rules, one fraction of non-null
values per (entity, column) pair, rounded to two decimals; row order is the
query's `ORDER BY feature`. -/
def completeness (fact : List FactOrderItem) (dimc : List DimCustomer)
    (dimp : List DimProduct) : List (String × Option ℚ) :=
  [ ("dim_customer.city", (sqlPctNonNull (dimc.map DimCustomer.city)).map round2)
  , ("dim_customer.state", (sqlPctNonNull (dimc.map DimCustomer.state)).map round2)
  , ("dim_product.category_name", (sqlPctNonNull (dimp.map DimProduct.category_name)).map round2)
  , ("fact_order_item.freight_value", (sqlPctNonNull (fact.map FactOrderItem.freight_value)).map round2)
  , ("fact_order_item.price", (sqlPctNonNull (fact.map FactOrderItem.price)).map round2)
  , ("fact_order_item.purchase_date_id", (sqlPctNonNull (fact.map FactOrderItem.purchase_date_id)).map round2) ]

/-- `COUNT(*) - COUNT(DISTINCT key)`: the duplicate count of a uniqueness
rule. -/
def sqlDupCount {κ : Type} [DecidableEq κ] (ks : List κ) : ℤ :=
  (ks.length : ℤ) - (ks.dedup.length : ℤ)

/-- `uniqueness()`: the six duplicate-count rules over staging natural keys,
in the query's `UNION ALL` order. -/
def uniqueness (stg : StagingDB) : List (String × ℤ) :=
  [ ("raw_orders.order_id", sqlDupCount (stg.raw_orders.map RawOrder.order_id))
  , ("raw_customers.customer_id", sqlDupCount (stg.raw_customers.map RawCustomer.customer_id))
  , ("raw_sellers.seller_id", sqlDupCount (stg.raw_sellers.map RawSeller.seller_id))
  , ("raw_products.product_id", sqlDupCount (stg.raw_products.map RawProduct.product_id))
  , ("raw_order_items(order_id,order_item_id)",
      sqlDupCount (stg.raw_order_items.map fun i => (i.order_id, i.order_item_id)))
  , ("raw_payments(order_id,payment_sequential)",
      sqlDupCount (stg.raw_payments.map fun p => (p.order_id, p.payment_sequential))) ]

/-- The 27 valid Brazilian state codes of the validity rules. -/
def validUFs : List String :=
  ["AC", "AL", "AP", "AM", "BA", "CE", "DF", "ES", "GO", "MA", "MT", "MS", "MG",
   "PA", "PB", "PR", "PE", "PI", "RJ", "RN", "RS", "RO", "RR", "SC", "SP", "SE", "TO"]

/-- SQL `state IN (valid UFs)` on a nullable column: not true when `NULL`. -/
def sqlStateValid (v : Option String) : Bool :=
  match v with
  | some s => decide (s ∈ validUFs)
  | none => false

/-- The `'dims>0 (produto)'` predicate: every physical dimension, defaulted
to 1 when `NULL` (`COALESCE(col, 1)`), is positive. -/
def productDimsPositive (p : RawProduct) : Bool :=
  sqlGtZero (coalesce p.product_weight_g (some 1))
    && sqlGtZero (coalesce p.product_length_cm (some 1))
    && sqlGtZero (coalesce p.product_height_cm (some 1))
    && sqlGtZero (coalesce p.product_width_cm (some 1))

/-- `validity()`: the five validity rules, each
`100.0 * AVG(CASE WHEN pred THEN 1 ELSE 0 END)` rounded to two decimals, in
the query's `ORDER BY rule` order. -/
def validity (items : List RawOrderItem) (sellers : List RawSeller)
    (customers : List RawCustomer) (products : List RawProduct) :
    List (String × Option ℚ) :=
  [ ("customer_state in UF",
      (sqlAvg100 customers fun c => if sqlStateValid c.customer_state then 1 else 0).map round2)
  , ("dims>0 (produto)",
      (sqlAvg100 products fun p => if productDimsPositive p then 1 else 0).map round2)
  , ("freight>=0",
      (sqlAvg100 items fun i => if sqlGeZero i.freight_value then 1 else 0).map round2)
  , ("price>0",
      (sqlAvg100 items fun i => if sqlGtZero i.price then 1 else 0).map round2)
  , ("seller_state in UF",
      (sqlAvg100 sellers fun s => if sqlStateValid s.seller_state then 1 else 0).map round2) ]

/-- The `'delivered_has_date'` consistency rule: rows whose status is not
`'delivered'` (including `NULL`) score 1 (vacuous truth); delivered rows
score 1 exactly when the delivery date is present. -/
def delivered_has_date_pct (orders : List RawOrder) : Option ℚ :=
  (sqlAvg100 orders fun o =>
    if o.order_status = some "delivered" then
      (if (o.order_delivered_customer_date).isSome then 1 else 0)
    else 1).map round2

/-- The `'delivered_after_purchase'` consistency rule: rows whose status is
not `'delivered'` score 1 (vacuous truth); delivered rows score 1 exactly
when `order_delivered_customer_date >= order_purchase_timestamp` is true
(not true when either timestamp is `NULL`). -/
def delivered_after_purchase_pct (orders : List RawOrder) : Option ℚ :=
  (sqlAvg100 orders fun o =>
    if o.order_status = some "delivered" then
      (if sqlTsLe o.order_purchase_timestamp o.order_delivered_customer_date then 1 else 0)
    else 1).map round2

/-- The `'shipping_limit_after_purchase'` consistency rule, over the inner
join of staging order items and orders. -/
def shipping_limit_after_purchase_pct (items : List RawOrderItem)
    (orders : List RawOrder) : Option ℚ :=
  (sqlAvg100
    (items.flatMap fun i =>
      (orders.filter fun o => decide (o.order_id = i.order_id)).map fun o => (i, o))
    fun io => if sqlTsLe io.2.order_purchase_timestamp io.1.shipping_limit_date then 1 else 0).map
    round2

/-- `SELECT order_id, SUM(payment_value) FROM raw_payments GROUP BY order_id`. -/
def payments_total (ps : List RawPayment) : List (String × Option ℚ) :=
  ((ps.map RawPayment.order_id).dedup).map fun k =>
    (k, sqlSumOpt ((ps.filter fun p => decide (p.order_id = k)).map RawPayment.payment_value))

/-- `SELECT order_id, SUM(price + freight_value) FROM raw_order_items GROUP
BY order_id`. -/
def items_total (its : List RawOrderItem) : List (String × Option ℚ) :=
  ((its.map RawOrderItem.order_id).dedup).map fun k =>
    (k, sqlSumOpt ((its.filter fun i => decide (i.order_id = k)).map fun i =>
      sqlAdd i.price i.freight_value))

/-- The `'sum(payments)≈sum(items)'` consistency rule: per-order totals joined
on `order_id`; a pair scores 1 when `abs(difference) <= 1.00` is true (not
true when either total is `NULL`). -/
def payments_match_items_pct (ps : List RawPayment) (its : List RawOrderItem) : Option ℚ :=
  (sqlAvg100
    ((payments_total ps).flatMap fun pt =>
      ((items_total its).filter fun it => decide (it.1 = pt.1)).map fun it => (pt.2, it.2))
    fun v =>
      match v.1, v.2 with
      | some a, some b => if |a - b| ≤ 1 then 1 else 0
      | _, _ => 0).map round2

/-- `consistency()`: the four consistency rules in the query's
`ORDER BY rule` order. -/
def consistency (orders : List RawOrder) (items : List RawOrderItem)
    (payments : List RawPayment) : List (String × Option ℚ) :=
  [ ("delivered_after_purchase", delivered_after_purchase_pct orders)
  , ("delivered_has_date", delivered_has_date_pct orders)
  , ("shipping_limit_after_purchase", shipping_limit_after_purchase_pct items orders)
  , ("sum(payments)≈sum(items)", payments_match_items_pct payments items) ]

/-- The timeliness lead-time list: `DATE(delivered) - DATE(purchase)` in days,
over the rows where both timestamps are present. -/
def lead_time_days (orders : List RawOrder) : List ℤ :=
  orders.filterMap fun o =>
    match o.order_delivered_customer_date, o.order_purchase_timestamp with
    | some d, some p => some (dayNumber (Timestamp.toDate d) - dayNumber (Timestamp.toDate p))
    | _, _ => none

/-- The timeliness on-time rate: `100.0 * AVG(delivered <= estimated)` over
the rows where both timestamps are present (rows missing either timestamp are
excluded by the `WHERE` clause, not penalized). -/
def ontime_pct (orders : List RawOrder) : Option ℚ :=
  sqlAvg100
    (orders.filter fun o =>
      (o.order_delivered_customer_date).isSome && (o.order_estimated_delivery_date).isSome)
    fun o => if sqlTsLe o.order_delivered_customer_date o.order_estimated_delivery_date then 1 else 0

/-! ## Concrete sample data used to evaluate the embedding -/

/-- A sample timestamp on 2017-03-02, with a varying hour. -/
def wTs (h : Nat) : Timestamp :=
  { year := 2017, month := 3, day := 2, hour := h, minute := 0, second := 0 }

/-- The sample date 2017-03-02. -/
def wDate : Date :=
  { year := 2017, month := 3, day := 2 }

/-- A sample delivered staging order. -/
def wOrder : RawOrder :=
  { order_id := "o1"
    customer_id := "c1"
    order_status := some "delivered"
    order_purchase_timestamp := some (wTs 9)
    order_approved_at := some (wTs 10)
    order_delivered_customer_date := some (wTs 11)
    order_estimated_delivery_date := some (wTs 12) }

/-- A sample shipped (not delivered) staging order. -/
def wOrderShipped : RawOrder :=
  { order_id := "o2"
    customer_id := "c1"
    order_status := some "shipped"
    order_purchase_timestamp := some (wTs 9)
    order_approved_at := none
    order_delivered_customer_date := none
    order_estimated_delivery_date := some (wTs 12) }

/-- A sample staging order item for `wOrder`. -/
def wItem : RawOrderItem :=
  { order_id := "o1"
    order_item_id := 1
    product_id := "p1"
    seller_id := "s1"
    shipping_limit_date := some (wTs 13)
    price := some 12
    freight_value := some 3 }

/-- A sample staging customer. -/
def wCust : RawCustomer :=
  { customer_id := "c1"
    customer_unique_id := none
    customer_zip_code_prefix := none
    customer_city := none
    customer_state := none }

/-- A sample staging seller. -/
def wSell : RawSeller :=
  { seller_id := "s1"
    seller_zip_code_prefix := none
    seller_city := none
    seller_state := none }

/-- A sample staging product. -/
def wProd : RawProduct :=
  { product_id := "p1"
    product_category_name := none
    product_weight_g := none
    product_length_cm := none
    product_height_cm := none
    product_width_cm := none }

/-- A sample staging payment for `wOrder`. -/
def wPay : RawPayment :=
  { order_id := "o1"
    payment_sequential := 1
    payment_type := some "credit_card"
    payment_installments := some 1
    payment_value := some 15 }

/-- A sample staging snapshot around `wOrder`. -/
def wStg : StagingDB :=
  { raw_orders := [wOrder]
    raw_order_items := [wItem]
    raw_customers := [wCust]
    raw_sellers := [wSell]
    raw_products := [wProd]
    raw_category_translation := []
    raw_payments := [wPay]
    raw_reviews := [] }

/-- A sample resolved customer dimension row. -/
def wDimC : DimCustomer :=
  { customer_sk := 10, customer_id := "c1", customer_unique_id := none,
    zip_prefix := none, city := none, state := none }

/-- A sample resolved seller dimension row. -/
def wDimS : DimSeller :=
  { seller_sk := 20, seller_id := "s1", zip_prefix := none, city := none, state := none }

/-- A sample resolved product dimension row. -/
def wDimP : DimProduct :=
  { product_sk := 30, product_id := "p1", category_name := none, category_name_en := none,
    weight_g := none, length_cm := none, height_cm := none, width_cm := none }

/-- A previously stored fact row for `wItem`, before the status change. -/
def wFactOld : FactOrderItem :=
  { order_id := "o1"
    order_item_id := 1
    customer_sk := 10
    seller_sk := 20
    product_sk := 30
    purchase_date_id := some wDate
    approved_date_id := some wDate
    shipping_limit_date_id := some wDate
    delivered_customer_date_id := none
    estimated_delivery_date_id := some wDate
    order_status := some "shipped"
    price := some 10
    freight_value := some 3 }

/-- The fact row the `insert_fact_items` `SELECT` derives from `wStg`. -/
def wFactNew : FactOrderItem :=
  { order_id := "o1"
    order_item_id := 1
    customer_sk := 10
    seller_sk := 20
    product_sk := 30
    purchase_date_id := some wDate
    approved_date_id := some wDate
    shipping_limit_date_id := some wDate
    delivered_customer_date_id := some wDate
    estimated_delivery_date_id := some wDate
    order_status := some "delivered"
    price := some 12
    freight_value := some 3 }

/-- A previously stored payment fact row for `wPay`, before the reload. -/
def wPayOld : FactPayment :=
  { order_id := "o1"
    payment_sequential := 1
    payment_type := some "boleto"
    payment_installments := some 2
    payment_value := some 11
    purchase_date_id := some wDate }

/-- The payment fact row the `insert_fact_payments` `SELECT` derives from
`wStg`. -/
def wPayNew : FactPayment :=
  { order_id := "o1"
    payment_sequential := 1
    payment_type := some "credit_card"
    payment_installments := some 1
    payment_value := some 15
    purchase_date_id := some wDate }

/-- A sample key list with 10 rows and 7 distinct values. -/
def wKeys10 : List String :=
  ["a", "b", "c", "d", "e", "f", "g", "a", "b", "c"]

/-- A stored customer dimension row with a non-null city and state. -/
def wC1DimC : DimCustomer :=
  { customer_sk := 1, customer_id := "c1", customer_unique_id := none,
    zip_prefix := none, city := some "A", state := some "SP" }

/-- An incoming customer row conflicting with `wC1DimC`: non-null unique id
and city, null zip and state. -/
def wC1RawC : RawCustomer :=
  { customer_id := "c1", customer_unique_id := some "u1",
    customer_zip_code_prefix := none, customer_city := some "B",
    customer_state := none }

/-- A stored seller dimension row. -/
def wC1DimS : DimSeller :=
  { seller_sk := 7, seller_id := "s1", zip_prefix := some 101,
    city := none, state := some "RJ" }

/-- An incoming seller row conflicting with `wC1DimS`. -/
def wC1RawS : RawSeller :=
  { seller_id := "s1", seller_zip_code_prefix := none,
    seller_city := some "rio", seller_state := none }

/-- A stored product dimension row. -/
def wC1DimP : DimProduct :=
  { product_sk := 3, product_id := "p1", category_name := some "cama",
    category_name_en := none, weight_g := none, length_cm := some 10,
    height_cm := none, width_cm := none }

/-- An incoming staging product conflicting with `wC1DimP`. -/
def wC1RawP : RawProduct :=
  { product_id := "p1", product_category_name := some "moveis",
    product_weight_g := some 500, product_length_cm := none,
    product_height_cm := none, product_width_cm := none }

/-- A category translation matching `wC1RawP`. -/
def wC1Trans : RawCategoryTranslation :=
  { product_category_name := "moveis",
    product_category_name_english := some "furniture" }

/-- A staging snapshot holding only `wC1RawP` and `wC1Trans`. -/
def wC1Stg : StagingDB :=
  { raw_orders := [], raw_order_items := [], raw_customers := [],
    raw_sellers := [], raw_products := [wC1RawP],
    raw_category_translation := [wC1Trans], raw_payments := [],
    raw_reviews := [] }

/-- The joined product source row `product_src` derives from `wC1Stg`. -/
def wC1ProdSrc : ProductSrcRow :=
  { product_id := "p1", category_name := some "moveis",
    category_name_en := some "furniture", weight_g := some 500,
    length_cm := none, height_cm := none, width_cm := none }

/-! ## List helper lemmas -/

theorem find_map_of_fix_true {α : Type} (f : α → α) (P : α → Bool)
    (htrue : ∀ x, P x = true → f x = x) (hP : ∀ x, P (f x) = P x) :
    ∀ l : List α, (l.map f).find? P = l.find? P := by
  intro l
  induction l with
  | nil => rfl
  | cons x xs ih =>
    by_cases hx : P x = true
    · have hfx : f x = x := htrue x hx
      rw [List.map_cons, List.find?_cons_of_pos _ ((hP x).trans hx), hfx,
        List.find?_cons_of_pos _ hx]
    · rw [List.map_cons, List.find?_cons_of_neg _ (by rw [hP x]; exact hx),
        List.find?_cons_of_neg _ hx, ih]

theorem find_map_of_fix_false {α : Type} (f : α → α) (P : α → Bool)
    ( _hfalse : ∀ x, P x = false → f x = x) (hP : ∀ x, P (f x) = P x) :
    ∀ l : List α, (l.map f).find? P = (l.find? P).map f := by
  intro l
  induction l with
  | nil => rfl
  | cons x xs ih =>
    by_cases hx : P x = true
    · rw [List.map_cons, List.find?_cons_of_pos _ ((hP x).trans hx),
        List.find?_cons_of_pos _ hx]
      rfl
    · rw [List.map_cons, List.find?_cons_of_neg _ (by rw [hP x]; exact hx),
        List.find?_cons_of_neg _ hx, ih]

theorem find_append_some {α : Type} {P : α → Bool} {l1 l2 : List α} {a : α}
    (h : l1.find? P = some a) : (l1 ++ l2).find? P = some a := by
  induction l1 with
  | nil => simp [List.find?] at h
  | cons x xs ih =>
    by_cases hx : P x = true
    · rw [List.find?_cons_of_pos _ hx] at h
      rw [List.cons_append, List.find?_cons_of_pos _ hx]; exact h
    · rw [List.find?_cons_of_neg _ hx] at h
      rw [List.cons_append, List.find?_cons_of_neg _ hx]; exact ih h

theorem find_append_none {α : Type} {P : α → Bool} {l1 l2 : List α}
    (h : l1.find? P = none) : (l1 ++ l2).find? P = l2.find? P := by
  induction l1 with
  | nil => rfl
  | cons x xs ih =>
    by_cases hx : P x = true
    · rw [List.find?_cons_of_pos _ hx] at h; exact absurd h (by simp)
    · rw [List.find?_cons_of_neg _ hx] at h
      rw [List.cons_append, List.find?_cons_of_neg _ hx]; exact ih h

theorem countP_map_eq {α : Type} (f : α → α) (P : α → Bool)
    (hP : ∀ x, P (f x) = P x) (l : List α) : (l.map f).countP P = l.countP P := by
  induction l with
  | nil => rfl
  | cons x xs ih => simp [List.countP_cons, ih, hP x]

/-! ## Lemmas about the `ON CONFLICT DO UPDATE` embedding -/

section PgUpsertLemmas

variable {κ ρ σ : Type} [DecidableEq κ]
variable (keyr : ρ → κ) (keys : σ → κ) (ins : Nat → σ → ρ) (merge : σ → ρ → ρ)

theorem pgUpsertFun_nil (table : List ρ) (sk : Nat) :
    pgUpsertFun keyr keys ins merge table sk [] = table := rfl

theorem pgUpsertFun_cons_mem {r : σ} {table : List ρ} (rs : List σ) (sk : Nat)
    (hc : keys r ∈ table.map keyr) :
    pgUpsertFun keyr keys ins merge table sk (r :: rs) =
      pgUpsertFun keyr keys ins merge (table.map (updRow keyr keys merge r)) sk rs := by
  simp only [pgUpsertFun]
  rw [if_pos hc]

theorem pgUpsertFun_cons_not_mem {r : σ} {table : List ρ} (rs : List σ) (sk : Nat)
    (hc : keys r ∉ table.map keyr) :
    pgUpsertFun keyr keys ins merge table sk (r :: rs) =
      pgUpsertFun keyr keys ins merge (table ++ [ins sk r]) (sk + 1) rs := by
  simp only [pgUpsertFun]
  rw [if_neg hc]

theorem updRow_key (hkM : ∀ s t, keyr (merge s t) = keyr t) (r : σ) (t : ρ) :
    keyr (updRow keyr keys merge r t) = keyr t := by
  unfold updRow
  by_cases h : keyr t = keys r <;> simp [h, hkM]

theorem map_key_updRow (hkM : ∀ s t, keyr (merge s t) = keyr t) (r : σ) (table : List ρ) :
    (table.map (updRow keyr keys merge r)).map keyr = table.map keyr := by
  rw [List.map_map]
  exact List.map_congr_left fun a _ => updRow_key keyr keys merge hkM r a

theorem keyP_updRow (hkM : ∀ s t, keyr (merge s t) = keyr t) (r : σ) (k : κ) (t : ρ) :
    keyP keyr k (updRow keyr keys merge r t) = keyP keyr k t := by
  unfold keyP
  rw [updRow_key keyr keys merge hkM]

/-- Keys present in the table stay present after the upsert. -/
theorem pgUpsertFun_key_mem (hkM : ∀ s t, keyr (merge s t) = keyr t) :
    ∀ (src : List σ) (table : List ρ) (sk : Nat) (k : κ),
      k ∈ table.map keyr → k ∈ (pgUpsertFun keyr keys ins merge table sk src).map keyr := by
  intro src
  induction src with
  | nil => intro table sk k hk; simpa [pgUpsertFun_nil] using hk
  | cons r rs ih =>
    intro table sk k hk
    by_cases hc : keys r ∈ table.map keyr
    · rw [pgUpsertFun_cons_mem keyr keys ins merge rs sk hc]
      exact ih _ _ _ (by rw [map_key_updRow keyr keys merge hkM]; exact hk)
    · rw [pgUpsertFun_cons_not_mem keyr keys ins merge rs sk hc]
      exact ih _ _ _ (by rw [List.map_append]; exact List.mem_append_left _ hk)

/-- After the upsert, every source key is present in the table. -/
theorem pgUpsertFun_src_key_mem (hkM : ∀ s t, keyr (merge s t) = keyr t)
    (hkI : ∀ n s, keyr (ins n s) = keys s) :
    ∀ (src : List σ) (table : List ρ) (sk : Nat) (s : σ),
      s ∈ src → keys s ∈ (pgUpsertFun keyr keys ins merge table sk src).map keyr := by
  intro src
  induction src with
  | nil => intro table sk s hs; exact absurd hs (List.not_mem_nil s)
  | cons r rs ih =>
    intro table sk s hs
    rcases List.mem_cons.mp hs with hsr | hsrs
    · subst hsr
      by_cases hc : keys s ∈ table.map keyr
      · rw [pgUpsertFun_cons_mem keyr keys ins merge rs sk hc]
        exact pgUpsertFun_key_mem keyr keys ins merge hkM rs _ sk _
          (by rw [map_key_updRow keyr keys merge hkM]; exact hc)
      · rw [pgUpsertFun_cons_not_mem keyr keys ins merge rs sk hc]
        exact pgUpsertFun_key_mem keyr keys ins merge hkM rs _ (sk + 1) _
          (by rw [List.map_append]
              exact List.mem_append_right _ (by simp [hkI]))
    · by_cases hc : keys r ∈ table.map keyr
      · rw [pgUpsertFun_cons_mem keyr keys ins merge rs sk hc]; exact ih _ _ _ hsrs
      · rw [pgUpsertFun_cons_not_mem keyr keys ins merge rs sk hc]; exact ih _ _ _ hsrs

/-- Rows under a key that no source row carries are untouched by the upsert. -/
theorem pgUpsertFun_find_not_mem (hkM : ∀ s t, keyr (merge s t) = keyr t)
    (hkI : ∀ n s, keyr (ins n s) = keys s) :
    ∀ (src : List σ) (table : List ρ) (sk : Nat) (k : κ),
      k ∉ src.map keys →
      (pgUpsertFun keyr keys ins merge table sk src).find? (keyP keyr k) =
        table.find? (keyP keyr k) := by
  intro src
  induction src with
  | nil => intro table sk k _; rfl
  | cons r rs ih =>
    intro table sk k hk
    have hkr : k ≠ keys r := fun h => hk (by rw [List.map_cons, h]; exact List.mem_cons_self _ _)
    have hkrs : k ∉ rs.map keys := fun h => hk (by rw [List.map_cons]; exact List.mem_cons_of_mem _ h)
    by_cases hc : keys r ∈ table.map keyr
    · rw [pgUpsertFun_cons_mem keyr keys ins merge rs sk hc, ih _ _ _ hkrs]
      refine find_map_of_fix_true _ _ ?_ (fun x => keyP_updRow keyr keys merge hkM r k x) table
      intro x hx
      have hxk : keyr x = k := by simpa [keyP] using hx
      unfold updRow
      rw [if_neg]
      intro hxx
      exact hkr (by rw [← hxk, hxx])
    · rw [pgUpsertFun_cons_not_mem keyr keys ins merge rs sk hc, ih _ _ _ hkrs]
      rcases h : table.find? (keyP keyr k) with _ | a
      · rw [find_append_none h]
        have hd : keyP keyr k (ins sk r) = false := by
          simp [keyP, hkI]
          intro h2
          exact hkr h2.symm
        rw [List.find?_cons_of_neg _ (by rw [hd]; simp)]
        rfl
      · exact find_append_some h

/-- Conflict semantics: when the source keys are distinct and a source row
`e` conflicts with the first stored row `t` under key `k`, the upsert
replaces that row by `merge e t`. -/
theorem pgUpsertFun_find_update (hkM : ∀ s t, keyr (merge s t) = keyr t)
    (hkI : ∀ n s, keyr (ins n s) = keys s) :
    ∀ (src : List σ) (table : List ρ) (sk : Nat) (k : κ) (e : σ) (t : ρ),
      (src.map keys).Nodup → e ∈ src → keys e = k →
      table.find? (keyP keyr k) = some t →
      (pgUpsertFun keyr keys ins merge table sk src).find? (keyP keyr k) =
        some (merge e t) := by
  intro src
  induction src with
  | nil => intro table sk k e t _ he; exact absurd he (List.not_mem_nil e)
  | cons r rs ih =>
    intro table sk k e t hnd he hek hft
    have hnds : (keys r :: rs.map keys).Nodup := by
      rw [← List.map_cons]
      exact hnd
    have hnr : keys r ∉ rs.map keys := (List.nodup_cons.mp hnds).1
    have hnd2 : (rs.map keys).Nodup := (List.nodup_cons.mp hnds).2
    have hkt : keyr t = k := by
      have := List.find?_some hft
      simpa [keyP] using this
    rcases List.mem_cons.mp he with her | hers
    · subst her
      have hc : keys e ∈ table.map keyr := by
        rw [hek]
        exact List.mem_map.mpr ⟨t, List.mem_of_find?_eq_some hft, hkt⟩
      rw [pgUpsertFun_cons_mem keyr keys ins merge rs sk hc]
      have hmap :
          (table.map (updRow keyr keys merge e)).find? (keyP keyr k) =
            some (merge e t) := by
        have hfix : ∀ x, keyP keyr k x = false → updRow keyr keys merge e x = x := by
          intro x hx
          have hxk : ¬ keyr x = k := by simpa [keyP] using hx
          unfold updRow
          rw [if_neg]
          intro hxx
          exact hxk (by rw [hxx, hek])
        rw [find_map_of_fix_false _ _ hfix
          (fun x => keyP_updRow keyr keys merge hkM e k x) table, hft]
        show some (updRow keyr keys merge e t) = some (merge e t)
        unfold updRow
        rw [if_pos (by rw [hkt, hek])]
      rw [pgUpsertFun_find_not_mem keyr keys ins merge hkM hkI rs _ sk k
        (by rw [← hek]; exact hnr), hmap]
    · have hkrs : k ∈ rs.map keys := List.mem_map.mpr ⟨e, hers, hek⟩
      have hkr : keys r ≠ k := fun h => hnr (h ▸ hkrs)
      by_cases hc : keys r ∈ table.map keyr
      · rw [pgUpsertFun_cons_mem keyr keys ins merge rs sk hc]
        refine ih _ _ _ _ _ hnd2 hers hek ?_
        have hfix : ∀ x, keyP keyr k x = true → updRow keyr keys merge r x = x := by
          intro x hx
          have hxk : keyr x = k := by simpa [keyP] using hx
          unfold updRow
          rw [if_neg]
          intro hxx
          exact hkr (by rw [← hxx, hxk])
        rw [find_map_of_fix_true _ _ hfix
          (fun x => keyP_updRow keyr keys merge hkM r k x) table]
        exact hft
      · rw [pgUpsertFun_cons_not_mem keyr keys ins merge rs sk hc]
        exact ih _ _ _ _ _ hnd2 hers hek (find_append_some hft)

/-- The number of rows under a key already present in the table is unchanged
by the upsert: conflicting rows are updated in place, never duplicated. -/
theorem pgUpsertFun_countP (hkM : ∀ s t, keyr (merge s t) = keyr t)
    (hkI : ∀ n s, keyr (ins n s) = keys s) :
    ∀ (src : List σ) (table : List ρ) (sk : Nat) (k : κ),
      k ∈ table.map keyr →
      (pgUpsertFun keyr keys ins merge table sk src).countP (keyP keyr k) =
        table.countP (keyP keyr k) := by
  intro src
  induction src with
  | nil => intro table sk k _; rfl
  | cons r rs ih =>
    intro table sk k hk
    by_cases hc : keys r ∈ table.map keyr
    · rw [pgUpsertFun_cons_mem keyr keys ins merge rs sk hc,
        ih _ _ _ (by rw [map_key_updRow keyr keys merge hkM]; exact hk)]
      exact countP_map_eq _ _ (fun x => keyP_updRow keyr keys merge hkM r k x) table
    · have hkr : keys r ≠ k := fun h => hc (h ▸ hk)
      rw [pgUpsertFun_cons_not_mem keyr keys ins merge rs sk hc,
        ih _ _ _ (by rw [List.map_append]; exact List.mem_append_left _ hk),
        List.countP_append]
      have hd : keyP keyr k (ins sk r) = false := by
        simp [keyP, hkI]
        intro h2
        exact hkr h2
      simp [List.countP_cons, hd]

/-- A row of the result whose key no source row carries was already in the
input table, unchanged. -/
theorem pgUpsertFun_mem_frozen (hkM : ∀ s t, keyr (merge s t) = keyr t)
    (hkI : ∀ n s, keyr (ins n s) = keys s) :
    ∀ (src : List σ) (table : List ρ) (sk : Nat) (t : ρ),
      t ∈ pgUpsertFun keyr keys ins merge table sk src →
      keyr t ∉ src.map keys → t ∈ table := by
  intro src
  induction src with
  | nil => intro table sk t ht _; simpa [pgUpsertFun_nil] using ht
  | cons r rs ih =>
    intro table sk t ht hk
    have hkr : keyr t ≠ keys r := fun h =>
      hk (by rw [List.map_cons, h]; exact List.mem_cons_self _ _)
    have hkrs : keyr t ∉ rs.map keys := fun h =>
      hk (by rw [List.map_cons]; exact List.mem_cons_of_mem _ h)
    by_cases hc : keys r ∈ table.map keyr
    · rw [pgUpsertFun_cons_mem keyr keys ins merge rs sk hc] at ht
      have ht2 := ih _ _ _ ht hkrs
      rcases List.mem_map.mp ht2 with ⟨t0, ht0, ht0e⟩
      by_cases h0 : keyr t0 = keys r
      · exfalso
        apply hkr
        rw [← ht0e]
        rw [updRow_key keyr keys merge hkM]
        exact h0
      · rw [← ht0e]
        unfold updRow
        rw [if_neg h0]
        exact ht0
    · rw [pgUpsertFun_cons_not_mem keyr keys ins merge rs sk hc] at ht
      have ht2 := ih _ _ _ ht hkrs
      rcases List.mem_append.mp ht2 with h | h
      · exact h
      · exfalso
        apply hkr
        have : t = ins sk r := List.mem_singleton.mp h
        rw [this, hkI]

/-- After a successful upsert with distinct source keys, every stored row
sharing a source row's key is a fixed point of merging that source row again.
The two merge laws say that re-merging a merged or freshly inserted row
changes nothing (true of the `COALESCE` merges and of last-write-wins). -/
theorem pgUpsertFun_merge_fixed (hkM : ∀ s t, keyr (merge s t) = keyr t)
    (hkI : ∀ n s, keyr (ins n s) = keys s)
    (hIdem : ∀ s t, merge s (merge s t) = merge s t)
    (hIns : ∀ n s, merge s (ins n s) = ins n s) :
    ∀ (src : List σ) (table : List ρ) (sk : Nat),
      (src.map keys).Nodup →
      ∀ s ∈ src, ∀ t ∈ pgUpsertFun keyr keys ins merge table sk src,
        keyr t = keys s → merge s t = t := by
  intro src
  induction src with
  | nil => intro table sk _ s hs; exact absurd hs (List.not_mem_nil s)
  | cons r rs ih =>
    intro table sk hnd s hs t ht hkt
    have hnds : (keys r :: rs.map keys).Nodup := by
      rw [← List.map_cons]
      exact hnd
    have hnr : keys r ∉ rs.map keys := (List.nodup_cons.mp hnds).1
    have hnd2 : (rs.map keys).Nodup := (List.nodup_cons.mp hnds).2
    rcases List.mem_cons.mp hs with hsr | hsrs
    · subst hsr
      have hknotin : keyr t ∉ rs.map keys := by rw [hkt]; exact hnr
      by_cases hc : keys s ∈ table.map keyr
      · rw [pgUpsertFun_cons_mem keyr keys ins merge rs sk hc] at ht
        have ht2 := pgUpsertFun_mem_frozen keyr keys ins merge hkM hkI rs _ sk t ht hknotin
        rcases List.mem_map.mp ht2 with ⟨t0, _, ht0e⟩
        by_cases h0 : keyr t0 = keys s
        · rw [← ht0e]
          unfold updRow
          rw [if_pos h0]
          exact hIdem s t0
        · exfalso
          apply h0
          rw [← hkt, ← ht0e]
          unfold updRow
          rw [if_neg h0]
      · rw [pgUpsertFun_cons_not_mem keyr keys ins merge rs sk hc] at ht
        have ht2 := pgUpsertFun_mem_frozen keyr keys ins merge hkM hkI rs _ (sk + 1) t ht hknotin
        rcases List.mem_append.mp ht2 with h | h
        · exfalso
          apply hc
          rw [← hkt]
          exact List.mem_map.mpr ⟨t, h, rfl⟩
        · rw [List.mem_singleton.mp h]
          exact hIns sk s
    · by_cases hc : keys r ∈ table.map keyr
      · rw [pgUpsertFun_cons_mem keyr keys ins merge rs sk hc] at ht
        exact ih _ _ hnd2 s hsrs t ht hkt
      · rw [pgUpsertFun_cons_not_mem keyr keys ins merge rs sk hc] at ht
        exact ih _ _ hnd2 s hsrs t ht hkt

/-- An upsert whose every source row already has its key in the table and
merges to a fixed point leaves the table unchanged. -/
theorem pgUpsertFun_fixed :
    ∀ (src : List σ) (table : List ρ) (sk : Nat),
      (∀ s ∈ src, keys s ∈ table.map keyr) →
      (∀ s ∈ src, ∀ t ∈ table, keyr t = keys s → merge s t = t) →
      pgUpsertFun keyr keys ins merge table sk src = table := by
  intro src
  induction src with
  | nil => intro table sk _ _; rfl
  | cons r rs ih =>
    intro table sk hkeys hfix
    have hc : keys r ∈ table.map keyr := hkeys r (List.mem_cons_self _ _)
    rw [pgUpsertFun_cons_mem keyr keys ins merge rs sk hc]
    have hmap : table.map (updRow keyr keys merge r) = table := by
      have : table.map (updRow keyr keys merge r) = table.map id :=
        List.map_congr_left fun a ha => by
          unfold updRow
          by_cases h : keyr a = keys r
          · rw [if_pos h]
            exact hfix r (List.mem_cons_self _ _) a ha h
          · rw [if_neg h]
            rfl
      rw [this, List.map_id]
    rw [hmap]
    exact ih _ _ (fun s hs => hkeys s (List.mem_cons_of_mem _ hs))
      (fun s hs t ht hk => hfix s (List.mem_cons_of_mem _ hs) t ht hk)

/-- Idempotence of a successful `DO UPDATE` upsert: running the same source
again, with any surrogate-key counter, changes nothing. -/
theorem pgUpsertFun_idem (hkM : ∀ s t, keyr (merge s t) = keyr t)
    (hkI : ∀ n s, keyr (ins n s) = keys s)
    (hIdem : ∀ s t, merge s (merge s t) = merge s t)
    (hIns : ∀ n s, merge s (ins n s) = ins n s)
    (src : List σ) (table : List ρ) (sk sk2 : Nat)
    (hnd : (src.map keys).Nodup) :
    pgUpsertFun keyr keys ins merge (pgUpsertFun keyr keys ins merge table sk src) sk2 src =
      pgUpsertFun keyr keys ins merge table sk src := by
  apply pgUpsertFun_fixed
  · intro s hs
    exact pgUpsertFun_src_key_mem keyr keys ins merge hkM hkI src table sk s hs
  · intro s hs t ht hk
    exact pgUpsertFun_merge_fixed keyr keys ins merge hkM hkI hIdem hIns src table sk hnd s hs t ht hk

/-- With pairwise-distinct source keys the statement succeeds and computes
`pgUpsertFun`. -/
theorem pgUpsertGo_ok :
    ∀ (src : List σ) (table : List ρ) (sk : Nat) (touched : List κ),
      (src.map keys).Nodup →
      (∀ s ∈ src, keys s ∉ touched) →
      pgUpsertGo keyr keys ins merge table sk touched src =
        Except.ok (pgUpsertFun keyr keys ins merge table sk src) := by
  intro src
  induction src with
  | nil => intro table sk touched _ _; rfl
  | cons r rs ih =>
    intro table sk touched hnd htch
    have hnds : (keys r :: rs.map keys).Nodup := by
      rw [← List.map_cons]
      exact hnd
    have hnr : keys r ∉ rs.map keys := (List.nodup_cons.mp hnds).1
    have hnd2 : (rs.map keys).Nodup := (List.nodup_cons.mp hnds).2
    have htch2 : ∀ s ∈ rs, keys s ∉ keys r :: touched := by
      intro s hs hmem
      rcases List.mem_cons.mp hmem with h | h
      · exact hnr (h ▸ List.mem_map.mpr ⟨s, hs, rfl⟩)
      · exact htch s (List.mem_cons_of_mem _ hs) h
    by_cases hc : keys r ∈ table.map keyr
    · simp only [pgUpsertGo]
      rw [if_pos hc, if_neg (htch r (List.mem_cons_self _ _)),
        ih _ _ _ hnd2 htch2, pgUpsertFun_cons_mem keyr keys ins merge rs sk hc]
    · simp only [pgUpsertGo]
      rw [if_neg hc, ih _ _ _ hnd2 htch2,
        pgUpsertFun_cons_not_mem keyr keys ins merge rs sk hc]

/-- With a repeated source key (or a source key already touched and stored)
the statement raises the cardinality-violation error. -/
theorem pgUpsertGo_error (hkM : ∀ s t, keyr (merge s t) = keyr t)
    (hkI : ∀ n s, keyr (ins n s) = keys s) :
    ∀ (src : List σ) (table : List ρ) (sk : Nat) (touched : List κ),
      (∀ k ∈ touched, k ∈ table.map keyr) →
      (¬ (src.map keys).Nodup ∨ ∃ s ∈ src, keys s ∈ touched) →
      ∃ msg, pgUpsertGo keyr keys ins merge table sk touched src = Except.error msg := by
  intro src
  induction src with
  | nil =>
    intro table sk touched _ hbad
    rcases hbad with h | ⟨s, hs, _⟩
    · exact (h (by simp)).elim
    · exact absurd hs (List.not_mem_nil s)
  | cons r rs ih =>
    intro table sk touched hsub hbad
    by_cases hrt : keys r ∈ touched
    · have hc : keys r ∈ table.map keyr := hsub _ hrt
      refine ⟨"ON CONFLICT DO UPDATE command cannot affect row a second time", ?_⟩
      simp only [pgUpsertGo]
      rw [if_pos hc, if_pos hrt]
    · have hbad2 : ¬ (rs.map keys).Nodup ∨ ∃ s ∈ rs, keys s ∈ keys r :: touched := by
        rcases hbad with h | ⟨s, hs, hst⟩
        · rw [List.map_cons, List.nodup_cons] at h
          rcases Decidable.em (keys r ∈ rs.map keys) with hmem | hmem
          · rcases List.mem_map.mp hmem with ⟨s, hs, hse⟩
            exact Or.inr ⟨s, hs, by rw [hse]; exact List.mem_cons_self _ _⟩
          · refine Or.inl ?_
            intro h2
            exact h ⟨hmem, h2⟩
        · rcases List.mem_cons.mp hs with hsr | hsrs
          · exact absurd (hsr ▸ hst) hrt
          · exact Or.inr ⟨s, hsrs, List.mem_cons_of_mem _ hst⟩
      by_cases hc : keys r ∈ table.map keyr
      · have hsub2 : ∀ k ∈ keys r :: touched,
            k ∈ (table.map (updRow keyr keys merge r)).map keyr := by
          intro k hk
          rw [map_key_updRow keyr keys merge hkM]
          rcases List.mem_cons.mp hk with h | h
          · exact h ▸ hc
          · exact hsub _ h
        rcases ih _ sk _ hsub2 hbad2 with ⟨msg, hmsg⟩
        refine ⟨msg, ?_⟩
        simp only [pgUpsertGo]
        rw [if_pos hc, if_neg hrt]
        exact hmsg
      · have hsub2 : ∀ k ∈ keys r :: touched, k ∈ (table ++ [ins sk r]).map keyr := by
          intro k hk
          rw [List.map_append]
          rcases List.mem_cons.mp hk with h | h
          · exact List.mem_append_right _ (by simp [hkI, h])
          · exact List.mem_append_left _ (hsub _ h)
        rcases ih _ (sk + 1) _ hsub2 hbad2 with ⟨msg, hmsg⟩
        refine ⟨msg, ?_⟩
        simp only [pgUpsertGo]
        rw [if_neg hc]
        exact hmsg

/-- A whole statement with distinct source keys succeeds. -/
theorem pgUpsert_ok (table : List ρ) (sk : Nat) (src : List σ)
    (hnd : (src.map keys).Nodup) :
    pgUpsert keyr keys ins merge table sk src =
      Except.ok (pgUpsertFun keyr keys ins merge table sk src) :=
  pgUpsertGo_ok keyr keys ins merge src table sk [] hnd (by simp)

/-- A whole statement with a repeated source key fails, whatever the table. -/
theorem pgUpsert_error (hkM : ∀ s t, keyr (merge s t) = keyr t)
    (hkI : ∀ n s, keyr (ins n s) = keys s) (table : List ρ) (sk : Nat) (src : List σ)
    (hnd : ¬ (src.map keys).Nodup) :
    ∃ msg, pgUpsert keyr keys ins merge table sk src = Except.error msg :=
  pgUpsertGo_error keyr keys ins merge hkM hkI src table sk [] (by simp) (Or.inl hnd)

end PgUpsertLemmas

/-! ## Lemmas about the `ON CONFLICT DO NOTHING` embedding -/

section PgNothingLemmas

variable {κ ρ σ : Type} [DecidableEq κ]
variable (keyr : ρ → κ) (keys : σ → κ) (ins : σ → ρ)

theorem pgUpsertNothing_key_mem :
    ∀ (src : List σ) (table : List ρ) (k : κ),
      k ∈ table.map keyr → k ∈ (pgUpsertNothing keyr keys ins table src).map keyr := by
  intro src
  induction src with
  | nil => intro table k hk; simpa [pgUpsertNothing] using hk
  | cons r rs ih =>
    intro table k hk
    by_cases hc : keys r ∈ table.map keyr
    · simp only [pgUpsertNothing]
      rw [if_pos hc]
      exact ih _ _ hk
    · simp only [pgUpsertNothing]
      rw [if_neg hc]
      exact ih _ _ (by rw [List.map_append]; exact List.mem_append_left _ hk)

theorem pgUpsertNothing_src_key_mem (hkI : ∀ s, keyr (ins s) = keys s) :
    ∀ (src : List σ) (table : List ρ) (s : σ),
      s ∈ src → keys s ∈ (pgUpsertNothing keyr keys ins table src).map keyr := by
  intro src
  induction src with
  | nil => intro table s hs; exact absurd hs (List.not_mem_nil s)
  | cons r rs ih =>
    intro table s hs
    rcases List.mem_cons.mp hs with hsr | hsrs
    · subst hsr
      by_cases hc : keys s ∈ table.map keyr
      · simp only [pgUpsertNothing]
        rw [if_pos hc]
        exact pgUpsertNothing_key_mem keyr keys ins rs _ _ hc
      · simp only [pgUpsertNothing]
        rw [if_neg hc]
        exact pgUpsertNothing_key_mem keyr keys ins rs _ _
          (by rw [List.map_append]; exact List.mem_append_right _ (by simp [hkI]))
    · by_cases hc : keys r ∈ table.map keyr
      · simp only [pgUpsertNothing]
        rw [if_pos hc]
        exact ih _ _ hsrs
      · simp only [pgUpsertNothing]
        rw [if_neg hc]
        exact ih _ _ hsrs

theorem pgUpsertNothing_fixed :
    ∀ (src : List σ) (table : List ρ),
      (∀ s ∈ src, keys s ∈ table.map keyr) →
      pgUpsertNothing keyr keys ins table src = table := by
  intro src
  induction src with
  | nil => intro table _; rfl
  | cons r rs ih =>
    intro table hkeys
    simp only [pgUpsertNothing]
    rw [if_pos (hkeys r (List.mem_cons_self _ _))]
    exact ih _ fun s hs => hkeys s (List.mem_cons_of_mem _ hs)

/-- `DO NOTHING` upserts are idempotent unconditionally. -/
theorem pgUpsertNothing_idem (hkI : ∀ s, keyr (ins s) = keys s)
    (src : List σ) (table : List ρ) :
    pgUpsertNothing keyr keys ins (pgUpsertNothing keyr keys ins table src) src =
      pgUpsertNothing keyr keys ins table src :=
  pgUpsertNothing_fixed keyr keys ins src _
    fun s hs => pgUpsertNothing_src_key_mem keyr keys ins hkI src table s hs

end PgNothingLemmas

/-! ## Support lemmas for the claims -/

theorem coalesce_self {α : Type} (a : Option α) : coalesce a a = a := by
  cases a <;> rfl

theorem coalesce_absorb {α : Type} (a b : Option α) :
    coalesce a (coalesce a b) = coalesce a b := by
  cases a <;> rfl

theorem coalesce_isSome_right {α : Type} (a b : Option α) (h : b.isSome = true) :
    (coalesce a b).isSome = true := by
  cases a
  · exact h
  · rfl

theorem coalesce_fillsGap {α : Type} (a b : Option α) : fillsGap a b (coalesce a b) := by
  cases a <;> simp [fillsGap, coalesce]

/-- The state of a table after an attempted `DO UPDATE` upsert, looked up at
a stored key: either unchanged (rollback, or no source row with that key) or
the merge of the unique source row under that key into the stored row. -/
theorem txUpsert_find {κ ρ σ : Type} [DecidableEq κ]
    (keyr : ρ → κ) (keys : σ → κ) (ins : Nat → σ → ρ) (merge : σ → ρ → ρ)
    (hkM : ∀ s t, keyr (merge s t) = keyr t) (hkI : ∀ n s, keyr (ins n s) = keys s)
    (table : List ρ) (sk : Nat) (src : List σ) (k : κ) (t : ρ)
    (hft : table.find? (keyP keyr k) = some t) :
    ∃ t2, (txTable (pgUpsert keyr keys ins merge table sk src) table).find? (keyP keyr k) =
        some t2 ∧
      (t2 = t ∨ ∃ e ∈ src, keys e = k ∧ t2 = merge e t) := by
  by_cases hnd : (src.map keys).Nodup
  · rw [pgUpsert_ok keyr keys ins merge table sk src hnd]
    show ∃ t2, (pgUpsertFun keyr keys ins merge table sk src).find? (keyP keyr k) = some t2 ∧ _
    by_cases hmem : k ∈ src.map keys
    · rcases List.mem_map.mp hmem with ⟨e, he, hek⟩
      exact ⟨merge e t,
        pgUpsertFun_find_update keyr keys ins merge hkM hkI src table sk k e t hnd he hek hft,
        Or.inr ⟨e, he, hek, rfl⟩⟩
    · exact ⟨t,
        by rw [pgUpsertFun_find_not_mem keyr keys ins merge hkM hkI src table sk k hmem]; exact hft,
        Or.inl rfl⟩
  · rcases pgUpsert_error keyr keys ins merge hkM hkI table sk src hnd with ⟨msg, hmsg⟩
    rw [hmsg]
    exact ⟨t, hft, Or.inl rfl⟩

theorem sqlAvg100_const_one {α : Type} (rows : List α) (score : α → ℚ)
    (hne : rows ≠ []) (hone : ∀ o ∈ rows, score o = 1) :
    sqlAvg100 rows score = some 100 := by
  have hsum : ∀ (l : List α), (∀ o ∈ l, score o = 1) → (l.map score).sum = (l.length : ℚ) := by
    intro l
    induction l with
    | nil => intro _; simp
    | cons x xs ih =>
      intro h
      rw [List.map_cons, List.sum_cons, h x (List.mem_cons_self _ _),
        ih fun o ho => h o (List.mem_cons_of_mem _ ho), List.length_cons]
      push_cast
      ring
  match rows, hne with
  | r :: rs, _ =>
    show some _ = some _
    rw [hsum (r :: rs) hone]
    have hlen : ((r :: rs).length : ℚ) ≠ 0 := by
      have h0 : (0 : ℚ) < ((r :: rs).length : ℚ) := by
        exact_mod_cast Nat.succ_pos rs.length
      exact ne_of_gt h0
    rw [mul_div_assoc, div_self hlen, mul_one]

theorem round2_of_nat_val : round2 100 = 100 := by
  have hfloor : ⌊(100 : ℚ) * 100 + 1 / 2⌋ = (10000 : ℤ) := by
    rw [Int.floor_eq_iff]
    constructor <;> norm_num
  rw [round2, if_neg (by norm_num), abs_of_nonneg (by norm_num : (0 : ℚ) ≤ 100), hfloor]
  norm_num

theorem sqlDupCount_nonneg {κ : Type} [DecidableEq κ] (ks : List κ) :
    0 ≤ sqlDupCount ks := by
  have h := List.Sublist.length_le (List.dedup_sublist ks)
  rw [sqlDupCount, sub_nonneg]
  exact_mod_cast h

/-! ## Claims -/

/-- C2: the claim asserts that a staging input with two rows sharing a
natural key but differing in an attribute upserts without error.  Evaluating
the embedded `upsert_dim_customer` on such an input: `SELECT DISTINCT` keeps
both rows (they differ in `customer_city`), the first is inserted, and the
second conflicts with a row already affected by the same command, so
PostgreSQL aborts the statement with a cardinality-violation error instead
of picking one instance. -/
theorem C2_duplicate_key_upsert_errors :
    upsert_dim_customer [] 1
      [{ customer_id := "c1", customer_unique_id := none,
         customer_zip_code_prefix := none, customer_city := some "sao paulo",
         customer_state := some "SP" },
       { customer_id := "c1", customer_unique_id := none,
         customer_zip_code_prefix := none, customer_city := some "campinas",
         customer_state := some "SP" }] =
      Except.error "ON CONFLICT DO UPDATE command cannot affect row a second time" := by
  rfl

/-- C4: a fraction-shaped DQ rule over a zero-row input reports `NULL`
(`none`) instead of raising a division error, and the other rules of the
same batch report the same values they report on any input for the emptied
table: the first three completeness rules (over the dimension tables) and
validity rules 0, 1 and 4 (over sellers, customers, products) are untouched
when the fact table, resp. the order-items table, is empty; the consistency
rules and the on-time rate are `none` on zero rows. -/
theorem C4_zero_rows_null_not_error :
    (∀ (fact : List FactOrderItem) (dimc : List DimCustomer) (dimp : List DimProduct),
      (completeness [] dimc dimp).map Prod.snd =
        ((completeness fact dimc dimp).map Prod.snd).take 3 ++ [none, none, none])
    ∧ (∀ (items : List RawOrderItem) (sellers : List RawSeller)
        (customers : List RawCustomer) (products : List RawProduct),
      (validity [] sellers customers products).map Prod.snd =
        (((validity items sellers customers products).map Prod.snd).set 2 none).set 3 none)
    ∧ delivered_has_date_pct [] = none
    ∧ delivered_after_purchase_pct [] = none
    ∧ ontime_pct [] = none := by
  refine ⟨?_, ?_, rfl, rfl, rfl⟩
  · intro fact dimc dimp
    rfl
  · intro items sellers customers products
    rfl

/-- C8 (counterexample): the empty row set is an input on which the
antecedent `order_status = 'delivered'` holds for no row, yet the
consistency rule reports `NULL` (`AVG` over zero rows), not 100.00. -/
theorem C8_vacuous_consistency_counterexample :
    (∀ o ∈ ([] : List RawOrder), ¬ o.order_status = some "delivered")
    ∧ delivered_has_date_pct [] = none
    ∧ delivered_has_date_pct [] ≠ some 100 := by
  refine ⟨by simp, rfl, by simp [delivered_has_date_pct, sqlAvg100]⟩

/-- C8 (amended): for every nonempty row set on which the antecedent
`order_status = 'delivered'` holds for no row, the delivered-consistency
rules report exactly 100.00: every row with a false antecedent scores 1
(vacuous truth), so the average is 1 and the reported value is 100. -/
theorem C8_vacuous_consistency_nonempty (orders : List RawOrder)
    (hne : orders ≠ [])
    (hnone : ∀ o ∈ orders, ¬ o.order_status = some "delivered") :
    delivered_has_date_pct orders = some 100
    ∧ delivered_after_purchase_pct orders = some 100 := by
  constructor
  · rw [delivered_has_date_pct,
      sqlAvg100_const_one orders _ hne fun o ho => if_neg (hnone o ho)]
    show some (round2 100) = some 100
    rw [round2_of_nat_val]
  · rw [delivered_after_purchase_pct,
      sqlAvg100_const_one orders _ hne fun o ho => if_neg (hnone o ho)]
    show some (round2 100) = some 100
    rw [round2_of_nat_val]

/-- C8 witness: a singleton row set whose only order is shipped, not
delivered; both delivered-consistency rules report exactly 100.00. -/
theorem C8_vacuous_consistency_nonempty_witness :
    delivered_has_date_pct [wOrderShipped] = some 100
    ∧ delivered_after_purchase_pct [wOrderShipped] = some 100 :=
  C8_vacuous_consistency_nonempty [wOrderShipped] (by simp)
    (by
      intro o ho
      rw [List.mem_singleton.mp ho]
      decide)

/-- C9: each uniqueness rule reports `COUNT(*) - COUNT(DISTINCT key)`; the
report is a non-negative integer for every entry of the batch, it is zero
exactly when the keys carry no duplicate, and a key list of 10 rows with 7
distinct values reports exactly 3. -/
theorem C9_uniqueness_duplicate_count :
    (∀ stg : StagingDB, ∀ p ∈ uniqueness stg, 0 ≤ p.2)
    ∧ (∀ ks : List String,
        (sqlDupCount ks = 0 ↔ ks.Nodup)
        ∧ (ks.length = 10 → ks.dedup.length = 7 → sqlDupCount ks = 3)) := by
  constructor
  · intro stg p hp
    rw [uniqueness] at hp
    simp only [List.mem_cons, List.not_mem_nil, or_false] at hp
    rcases hp with h | h | h | h | h | h <;> rw [h] <;> exact sqlDupCount_nonneg _
  · intro ks
    constructor
    · constructor
      · intro h
        have hlen : ks.dedup.length = ks.length := by
          rw [sqlDupCount, sub_eq_zero] at h
          exact_mod_cast h.symm
        have hself : ks.dedup = ks := (List.dedup_sublist ks).eq_of_length hlen
        exact List.dedup_eq_self.mp hself
      · intro h
        rw [sqlDupCount, List.dedup_eq_self.mpr h, sub_self]
    · intro h10 h7
      rw [sqlDupCount, h10, h7]
      norm_num

/-- C1 (counterexample): the claim as stated says an existing non-null value
survives the conflict.  With existing city `'A'` (non-null) and incoming
city `'B'` (non-null), `COALESCE(EXCLUDED.city, dim.city)` stores the
incoming `'B'`, not the existing `'A'`. -/
theorem C1_counterexample :
    upsert_dim_customer
      [{ customer_sk := 1, customer_id := "c1", customer_unique_id := none,
         zip_prefix := none, city := some "A", state := none }] 2
      [{ customer_id := "c1", customer_unique_id := none,
         customer_zip_code_prefix := none, customer_city := some "B",
         customer_state := none }] =
      Except.ok
        [{ customer_sk := 1, customer_id := "c1", customer_unique_id := none,
           zip_prefix := none, city := some "B", state := none }]
    ∧ (some "B" : Option String) ≠ some "A" := by
  exact ⟨rfl, by simp⟩

/-- C1 (amended): for every dimension upsert (customer, seller, product) and
every column, on a conflict between an incoming row and the stored row under
the same natural key, the stored value after the upsert is the incoming
value when the incoming value is non-null, and the existing value only when
the incoming value is null (`COALESCE(EXCLUDED.col, existing.col)`), decided
independently per column; the surrogate key and natural key are unchanged. -/
theorem C1_merge_incoming_wins :
    (∀ (table : List DimCustomer) (sk : Nat) (rows : List RawCustomer) (k : String)
        (t : DimCustomer) (e : RawCustomer),
      ((rows.dedup).map RawCustomer.customer_id).Nodup →
      e ∈ rows → RawCustomer.customer_id e = k →
      table.find? (keyP DimCustomer.customer_id k) = some t →
      ∃ T2 t2, upsert_dim_customer table sk rows = Except.ok T2 ∧
        T2.find? (keyP DimCustomer.customer_id k) = some t2 ∧
        t2.customer_sk = t.customer_sk ∧
        t2.customer_id = t.customer_id ∧
        fillsGap e.customer_unique_id t.customer_unique_id t2.customer_unique_id ∧
        fillsGap ( RawCustomer.customer_zip_code_prefix e) ( DimCustomer.zip_prefix t)
          ( DimCustomer.zip_prefix t2) ∧
        fillsGap e.customer_city t.city t2.city ∧
        fillsGap e.customer_state t.state t2.state)
    ∧ (∀ (table : List DimSeller) (sk : Nat) (rows : List RawSeller) (k : String)
        (t : DimSeller) (e : RawSeller),
      ((rows.dedup).map RawSeller.seller_id).Nodup →
      e ∈ rows → RawSeller.seller_id e = k →
      table.find? (keyP DimSeller.seller_id k) = some t →
      ∃ T2 t2, upsert_dim_seller table sk rows = Except.ok T2 ∧
        T2.find? (keyP DimSeller.seller_id k) = some t2 ∧
        t2.seller_sk = t.seller_sk ∧
        t2.seller_id = t.seller_id ∧
        fillsGap ( RawSeller.seller_zip_code_prefix e) ( DimSeller.zip_prefix t)
          ( DimSeller.zip_prefix t2) ∧
        fillsGap e.seller_city t.city t2.city ∧
        fillsGap e.seller_state t.state t2.state)
    ∧ (∀ (table : List DimProduct) (sk : Nat) (products : List RawProduct)
        (trans : List RawCategoryTranslation) (k : String)
        (t : DimProduct) (e : ProductSrcRow),
      ((product_src products trans).map ProductSrcRow.product_id).Nodup →
      e ∈ product_src products trans → ProductSrcRow.product_id e = k →
      table.find? (keyP DimProduct.product_id k) = some t →
      ∃ T2 t2, upsert_dim_product table sk
          { raw_orders := [], raw_order_items := [], raw_customers := [],
            raw_sellers := [], raw_products := products,
            raw_category_translation := trans, raw_payments := [],
            raw_reviews := [] } = Except.ok T2 ∧
        T2.find? (keyP DimProduct.product_id k) = some t2 ∧
        t2.product_sk = t.product_sk ∧
        t2.product_id = t.product_id ∧
        fillsGap e.category_name t.category_name t2.category_name ∧
        fillsGap e.category_name_en t.category_name_en t2.category_name_en ∧
        fillsGap e.weight_g t.weight_g t2.weight_g ∧
        fillsGap e.length_cm t.length_cm t2.length_cm ∧
        fillsGap e.height_cm t.height_cm t2.height_cm ∧
        fillsGap e.width_cm t.width_cm t2.width_cm) := by
  refine ⟨?_, ?_, ?_⟩
  · intro table sk rows k t e hnd he hek hft
    refine ⟨_, custMerge e t,
      pgUpsert_ok DimCustomer.customer_id RawCustomer.customer_id custIns custMerge
        table sk rows.dedup hnd,
      pgUpsertFun_find_update DimCustomer.customer_id RawCustomer.customer_id custIns
        custMerge (fun _ _ => rfl) (fun _ _ => rfl) rows.dedup table sk k e t hnd
        (List.mem_dedup.mpr he) hek hft,
      rfl, rfl, ?_, ?_, ?_, ?_⟩ <;> exact coalesce_fillsGap _ _
  · intro table sk rows k t e hnd he hek hft
    refine ⟨_, sellMerge e t,
      pgUpsert_ok DimSeller.seller_id RawSeller.seller_id sellIns sellMerge
        table sk rows.dedup hnd,
      pgUpsertFun_find_update DimSeller.seller_id RawSeller.seller_id sellIns
        sellMerge (fun _ _ => rfl) (fun _ _ => rfl) rows.dedup table sk k e t hnd
        (List.mem_dedup.mpr he) hek hft,
      rfl, rfl, ?_, ?_, ?_⟩ <;> exact coalesce_fillsGap _ _
  · intro table sk products trans k t e hnd he hek hft
    refine ⟨_, prodMerge e t,
      pgUpsert_ok DimProduct.product_id ProductSrcRow.product_id prodIns prodMerge
        table sk (product_src products trans) hnd,
      pgUpsertFun_find_update DimProduct.product_id ProductSrcRow.product_id prodIns
        prodMerge (fun _ _ => rfl) (fun _ _ => rfl) (product_src products trans)
        table sk k e t hnd he hek hft,
      rfl, rfl, ?_, ?_, ?_, ?_, ?_, ?_⟩ <;> exact coalesce_fillsGap _ _

/-- C1 witness: concrete conflicts for all three dimensions, with mixed
incoming rows (some columns non-null, some null). -/
theorem C1_merge_incoming_wins_witness :
    (∃ T2 t2, upsert_dim_customer [wC1DimC] 2 [wC1RawC] = Except.ok T2 ∧
      T2.find? (keyP DimCustomer.customer_id "c1") = some t2 ∧
      t2.customer_sk = wC1DimC.customer_sk ∧
      t2.customer_id = wC1DimC.customer_id ∧
      fillsGap wC1RawC.customer_unique_id wC1DimC.customer_unique_id t2.customer_unique_id ∧
      fillsGap ( RawCustomer.customer_zip_code_prefix wC1RawC) ( DimCustomer.zip_prefix wC1DimC)
        ( DimCustomer.zip_prefix t2) ∧
      fillsGap wC1RawC.customer_city wC1DimC.city t2.city ∧
      fillsGap wC1RawC.customer_state wC1DimC.state t2.state)
    ∧ (∃ T2 t2, upsert_dim_seller [wC1DimS] 8 [wC1RawS] = Except.ok T2 ∧
      T2.find? (keyP DimSeller.seller_id "s1") = some t2 ∧
      t2.seller_sk = wC1DimS.seller_sk ∧
      t2.seller_id = wC1DimS.seller_id ∧
      fillsGap ( RawSeller.seller_zip_code_prefix wC1RawS) ( DimSeller.zip_prefix wC1DimS)
        ( DimSeller.zip_prefix t2) ∧
      fillsGap wC1RawS.seller_city wC1DimS.city t2.city ∧
      fillsGap wC1RawS.seller_state wC1DimS.state t2.state)
    ∧ (∃ T2 t2, upsert_dim_product [wC1DimP] 4 wC1Stg = Except.ok T2 ∧
      T2.find? (keyP DimProduct.product_id "p1") = some t2 ∧
      t2.product_sk = wC1DimP.product_sk ∧
      t2.product_id = wC1DimP.product_id ∧
      fillsGap wC1ProdSrc.category_name wC1DimP.category_name t2.category_name ∧
      fillsGap wC1ProdSrc.category_name_en wC1DimP.category_name_en t2.category_name_en ∧
      fillsGap wC1ProdSrc.weight_g wC1DimP.weight_g t2.weight_g ∧
      fillsGap wC1ProdSrc.length_cm wC1DimP.length_cm t2.length_cm ∧
      fillsGap wC1ProdSrc.height_cm wC1DimP.height_cm t2.height_cm ∧
      fillsGap wC1ProdSrc.width_cm wC1DimP.width_cm t2.width_cm) := by
  refine ⟨?_, ?_, ?_⟩
  · exact C1_merge_incoming_wins.1 [wC1DimC] 2 [wC1RawC] "c1" wC1DimC wC1RawC
      (by decide) (by decide) (by decide) (by decide)
  · exact C1_merge_incoming_wins.2.1 [wC1DimS] 8 [wC1RawS] "s1" wC1DimS wC1RawS
      (by decide) (by decide) (by decide) (by decide)
  · exact C1_merge_incoming_wins.2.2 [wC1DimP] 4 [wC1RawP] [wC1Trans] "p1" wC1DimP wC1ProdSrc
      (by decide) (by decide) (by decide) (by decide)

/-- C5: the fill-gap invariant.  For every dimension (customer, seller,
product), every stored row and every column: whatever a later upsert run
does (update the row, leave it alone, or fail and roll back), a stored
non-null value is never turned into null — `COALESCE(EXCLUDED.col, dim.col)`
keeps the stored value whenever the incoming value is null. -/
theorem C5_fill_gap_invariant :
    (∀ (table : List DimCustomer) (sk : Nat) (rows : List RawCustomer) (k : String)
        (t : DimCustomer),
      table.find? (keyP DimCustomer.customer_id k) = some t →
      ∃ t2, (txTable (upsert_dim_customer table sk rows) table).find?
          (keyP DimCustomer.customer_id k) = some t2 ∧
        ((t.customer_unique_id).isSome = true → (t2.customer_unique_id).isSome = true) ∧
        (( DimCustomer.zip_prefix t).isSome = true → ( DimCustomer.zip_prefix t2).isSome = true) ∧
        ((t.city).isSome = true → (t2.city).isSome = true) ∧
        ((t.state).isSome = true → (t2.state).isSome = true))
    ∧ (∀ (table : List DimSeller) (sk : Nat) (rows : List RawSeller) (k : String)
        (t : DimSeller),
      table.find? (keyP DimSeller.seller_id k) = some t →
      ∃ t2, (txTable (upsert_dim_seller table sk rows) table).find?
          (keyP DimSeller.seller_id k) = some t2 ∧
        (( DimSeller.zip_prefix t).isSome = true → ( DimSeller.zip_prefix t2).isSome = true) ∧
        ((t.city).isSome = true → (t2.city).isSome = true) ∧
        ((t.state).isSome = true → (t2.state).isSome = true))
    ∧ (∀ (table : List DimProduct) (sk : Nat) (stg : StagingDB) (k : String)
        (t : DimProduct),
      table.find? (keyP DimProduct.product_id k) = some t →
      ∃ t2, (txTable (upsert_dim_product table sk stg) table).find?
          (keyP DimProduct.product_id k) = some t2 ∧
        ((t.category_name).isSome = true → (t2.category_name).isSome = true) ∧
        ((t.category_name_en).isSome = true → (t2.category_name_en).isSome = true) ∧
        ((t.weight_g).isSome = true → (t2.weight_g).isSome = true) ∧
        ((t.length_cm).isSome = true → (t2.length_cm).isSome = true) ∧
        ((t.height_cm).isSome = true → (t2.height_cm).isSome = true) ∧
        ((t.width_cm).isSome = true → (t2.width_cm).isSome = true)) := by
  refine ⟨?_, ?_, ?_⟩
  · intro table sk rows k t hft
    rcases txUpsert_find DimCustomer.customer_id RawCustomer.customer_id custIns custMerge
      (fun _ _ => rfl) (fun _ _ => rfl) table sk rows.dedup k t hft with ⟨t2, hfind, hcase⟩
    refine ⟨t2, hfind, ?_, ?_, ?_, ?_⟩ <;>
      · intro hs
        rcases hcase with h | ⟨e, _, _, h⟩ <;> subst h
        · exact hs
        · exact coalesce_isSome_right _ _ hs
  · intro table sk rows k t hft
    rcases txUpsert_find DimSeller.seller_id RawSeller.seller_id sellIns sellMerge
      (fun _ _ => rfl) (fun _ _ => rfl) table sk rows.dedup k t hft with ⟨t2, hfind, hcase⟩
    refine ⟨t2, hfind, ?_, ?_, ?_⟩ <;>
      · intro hs
        rcases hcase with h | ⟨e, _, _, h⟩ <;> subst h
        · exact hs
        · exact coalesce_isSome_right _ _ hs
  · intro table sk stg k t hft
    rcases txUpsert_find DimProduct.product_id ProductSrcRow.product_id prodIns prodMerge
      (fun _ _ => rfl) (fun _ _ => rfl) table sk
      (product_src stg.raw_products stg.raw_category_translation) k t hft with
      ⟨t2, hfind, hcase⟩
    refine ⟨t2, hfind, ?_, ?_, ?_, ?_, ?_, ?_⟩ <;>
      · intro hs
        rcases hcase with h | ⟨e, _, _, h⟩ <;> subst h
        · exact hs
        · exact coalesce_isSome_right _ _ hs

/-- C5 witness: a later run whose incoming row is entirely null leaves the
stored non-null customer city and state intact. -/
theorem C5_fill_gap_invariant_witness :
    ∃ t2, (txTable (upsert_dim_customer [wC1DimC] 5 [wCust]) [wC1DimC]).find?
        (keyP DimCustomer.customer_id "c1") = some t2 ∧
      ((wC1DimC.customer_unique_id).isSome = true → (t2.customer_unique_id).isSome = true) ∧
      (( DimCustomer.zip_prefix wC1DimC).isSome = true →
        ( DimCustomer.zip_prefix t2).isSome = true) ∧
      ((wC1DimC.city).isSome = true → (t2.city).isSome = true) ∧
      ((wC1DimC.state).isSome = true → (t2.state).isSome = true) :=
  C5_fill_gap_invariant.1 [wC1DimC] 5 [wCust] "c1" wC1DimC (by decide)

theorem flatMap_nil {α β : Type} {l : List α} {f : α → List β}
    (h : ∀ x ∈ l, f x = []) : l.flatMap f = [] :=
  List.flatMap_eq_nil_iff.mpr h

/-- C7: referential exclusion.  A staging order item whose referenced parent
entity is absent — no matching staging order, seller or product, no matching
seller or product dimension row, or (for every matching order) no matching
staging customer or customer dimension row — contributes zero rows to the
`insert_fact_items` selection: the inner joins drop it silently, producing
no error row. -/
theorem C7_referential_exclusion
    (i : RawOrderItem) (orders : List RawOrder) (customers : List RawCustomer)
    (sellers : List RawSeller) (products : List RawProduct)
    (dc : List DimCustomer) (ds : List DimSeller) (dp : List DimProduct)
    (hmiss :
      (∀ o ∈ orders, ¬ o.order_id = i.order_id)
      ∨ (∀ s ∈ sellers, ¬ s.seller_id = i.seller_id)
      ∨ (∀ p ∈ products, ¬ p.product_id = i.product_id)
      ∨ (∀ d ∈ ds, ¬ DimSeller.seller_id d = i.seller_id)
      ∨ (∀ d ∈ dp, ¬ DimProduct.product_id d = i.product_id)
      ∨ (∀ o ∈ orders, o.order_id = i.order_id →
          ∀ c ∈ customers, ¬ c.customer_id = o.customer_id)
      ∨ (∀ o ∈ orders, o.order_id = i.order_id →
          ∀ d ∈ dc, ¬ DimCustomer.customer_id d = o.customer_id)) :
    item_fact_rows i orders customers sellers products dc ds dp = [] := by
  unfold item_fact_rows
  rcases hmiss with h | h | h | h | h | h | h
  · rw [List.filter_eq_nil_iff.mpr fun o ho => by simpa using h o ho]
    rfl
  · refine flatMap_nil fun o ho => flatMap_nil fun c hc => ?_
    rw [List.filter_eq_nil_iff.mpr fun s hs => by simpa using h s hs]
    rfl
  · refine flatMap_nil fun o ho => flatMap_nil fun c hc => flatMap_nil fun s hs => ?_
    rw [List.filter_eq_nil_iff.mpr fun p hp => by simpa using h p hp]
    rfl
  · refine flatMap_nil fun o ho => flatMap_nil fun c hc => flatMap_nil fun s hs =>
      flatMap_nil fun p hp => flatMap_nil fun dcr hdcr => ?_
    have hs2 : s.seller_id = i.seller_id :=
      of_decide_eq_true (List.mem_filter.mp hs).2
    rw [List.filter_eq_nil_iff.mpr fun d hd => by simp [hs2]; exact h d hd]
    rfl
  · refine flatMap_nil fun o ho => flatMap_nil fun c hc => flatMap_nil fun s hs =>
      flatMap_nil fun p hp => flatMap_nil fun dcr hdcr => flatMap_nil fun dsr hdsr => ?_
    have hp2 : p.product_id = i.product_id :=
      of_decide_eq_true (List.mem_filter.mp hp).2
    rw [List.filter_eq_nil_iff.mpr fun d hd => by simp [hp2]; exact h d hd]
    rfl
  · refine flatMap_nil fun o ho => ?_
    have ho2 : o.order_id = i.order_id :=
      of_decide_eq_true (List.mem_filter.mp ho).2
    rw [List.filter_eq_nil_iff.mpr fun c hc => by
      simpa using h o (List.mem_filter.mp ho).1 ho2 c hc]
    rfl
  · refine flatMap_nil fun o ho => flatMap_nil fun c hc => flatMap_nil fun s hs =>
      flatMap_nil fun p hp => ?_
    have ho2 : o.order_id = i.order_id :=
      of_decide_eq_true (List.mem_filter.mp ho).2
    have hc2 : c.customer_id = o.customer_id :=
      of_decide_eq_true (List.mem_filter.mp hc).2
    rw [List.filter_eq_nil_iff.mpr fun d hd => by
      simp [hc2]
      exact h o (List.mem_filter.mp ho).1 ho2 d hd]
    rfl

/-- C7 witness: an order item whose product is missing from staging yields
zero fact rows. -/
theorem C7_referential_exclusion_witness :
    item_fact_rows wItem [wOrder] [wCust] [wSell] [] [wDimC] [wDimS] [wDimP] = [] :=
  C7_referential_exclusion wItem [wOrder] [wCust] [wSell] [] [wDimC] [wDimS] [wDimP]
    (Or.inr (Or.inr (Or.inl (by simp))))

/-- C3: last-write-wins for facts.  When the fact-builder selection (with
pairwise-distinct composite keys) contains a row `e` conflicting with a
stored row `t`, the statement succeeds, the stored row becomes
`mergeFactItem e t` (resp. `mergeFactPayment e t`) whose measure and status
columns equal the newest selected values exactly, and the number of rows
under that key is unchanged — updated in place, not duplicated, not
skipped. -/
theorem C3_fact_last_write_wins :
    (∀ (table : List FactOrderItem) (stg : StagingDB) (dc : List DimCustomer)
        (ds : List DimSeller) (dp : List DimProduct) (t e : FactOrderItem),
      ((fact_items_select stg dc ds dp).map factItemKey).Nodup →
      e ∈ fact_items_select stg dc ds dp →
      factItemKey e = factItemKey t →
      table.find? (keyP factItemKey (factItemKey t)) = some t →
      ∃ T2, insert_fact_items table stg dc ds dp = Except.ok T2 ∧
        T2.find? (keyP factItemKey (factItemKey t)) = some (mergeFactItem e t) ∧
        (mergeFactItem e t).price = e.price ∧
        (mergeFactItem e t).freight_value = e.freight_value ∧
        (mergeFactItem e t).order_status = e.order_status ∧
        T2.countP (keyP factItemKey (factItemKey t)) =
          table.countP (keyP factItemKey (factItemKey t)))
    ∧ (∀ (table : List FactPayment) (stg : StagingDB) (t e : FactPayment),
      ((fact_payments_select stg).map factPayKey).Nodup →
      e ∈ fact_payments_select stg →
      factPayKey e = factPayKey t →
      table.find? (keyP factPayKey (factPayKey t)) = some t →
      ∃ T2, insert_fact_payments table stg = Except.ok T2 ∧
        T2.find? (keyP factPayKey (factPayKey t)) = some (mergeFactPayment e t) ∧
        (mergeFactPayment e t).payment_type = e.payment_type ∧
        (mergeFactPayment e t).payment_installments = e.payment_installments ∧
        (mergeFactPayment e t).payment_value = e.payment_value ∧
        T2.countP (keyP factPayKey (factPayKey t)) =
          table.countP (keyP factPayKey (factPayKey t))) := by
  constructor
  · intro table stg dc ds dp t e hnd he hek hft
    have hmem : factItemKey t ∈ table.map factItemKey :=
      List.mem_map.mpr ⟨t, List.mem_of_find?_eq_some hft, rfl⟩
    exact ⟨_, pgUpsert_ok factItemKey factItemKey (fun _ r => r) mergeFactItem table 0
        (fact_items_select stg dc ds dp) hnd,
      pgUpsertFun_find_update factItemKey factItemKey (fun _ r => r) mergeFactItem
        (fun _ _ => rfl) (fun _ _ => rfl) (fact_items_select stg dc ds dp) table 0
        (factItemKey t) e t hnd he hek hft,
      rfl, rfl, rfl,
      pgUpsertFun_countP factItemKey factItemKey (fun _ r => r) mergeFactItem
        (fun _ _ => rfl) (fun _ _ => rfl) (fact_items_select stg dc ds dp) table 0
        (factItemKey t) hmem⟩
  · intro table stg t e hnd he hek hft
    have hmem : factPayKey t ∈ table.map factPayKey :=
      List.mem_map.mpr ⟨t, List.mem_of_find?_eq_some hft, rfl⟩
    exact ⟨_, pgUpsert_ok factPayKey factPayKey (fun _ r => r) mergeFactPayment table 0
        (fact_payments_select stg) hnd,
      pgUpsertFun_find_update factPayKey factPayKey (fun _ r => r) mergeFactPayment
        (fun _ _ => rfl) (fun _ _ => rfl) (fact_payments_select stg) table 0
        (factPayKey t) e t hnd he hek hft,
      rfl, rfl, rfl,
      pgUpsertFun_countP factPayKey factPayKey (fun _ r => r) mergeFactPayment
        (fun _ _ => rfl) (fun _ _ => rfl) (fact_payments_select stg) table 0
        (factPayKey t) hmem⟩

/-- C3 witness: re-running the fact builder after `wItem`'s order moved from
shipped (stored in `wFactOld`) to delivered with a new price updates the
stored row in place to the newest values, for both fact tables. -/
theorem C3_fact_last_write_wins_witness :
    (∃ T2, insert_fact_items [wFactOld] wStg [wDimC] [wDimS] [wDimP] = Except.ok T2 ∧
      T2.find? (keyP factItemKey (factItemKey wFactOld)) =
        some (mergeFactItem wFactNew wFactOld) ∧
      (mergeFactItem wFactNew wFactOld).price = wFactNew.price ∧
      (mergeFactItem wFactNew wFactOld).freight_value = wFactNew.freight_value ∧
      (mergeFactItem wFactNew wFactOld).order_status = wFactNew.order_status ∧
      T2.countP (keyP factItemKey (factItemKey wFactOld)) =
        [wFactOld].countP (keyP factItemKey (factItemKey wFactOld)))
    ∧ (∃ T2, insert_fact_payments [wPayOld] wStg = Except.ok T2 ∧
      T2.find? (keyP factPayKey (factPayKey wPayOld)) =
        some (mergeFactPayment wPayNew wPayOld) ∧
      (mergeFactPayment wPayNew wPayOld).payment_type = wPayNew.payment_type ∧
      (mergeFactPayment wPayNew wPayOld).payment_installments = wPayNew.payment_installments ∧
      (mergeFactPayment wPayNew wPayOld).payment_value = wPayNew.payment_value ∧
      T2.countP (keyP factPayKey (factPayKey wPayOld)) =
        [wPayOld].countP (keyP factPayKey (factPayKey wPayOld))) :=
  ⟨C3_fact_last_write_wins.1 [wFactOld] wStg [wDimC] [wDimS] [wDimP] wFactOld wFactNew
      (by decide) (by decide) (by decide) (by decide),
   C3_fact_last_write_wins.2 [wPayOld] wStg wPayOld wPayNew
      (by decide) (by decide) (by decide) (by decide)⟩

/-- C10: the frame of the fact conflict updates.  On a conflict, the
order-item update overwrites `delivered_customer_date_id` besides the
measures and status, while `customer_sk`, `seller_sk`, `product_sk`,
`purchase_date_id`, `approved_date_id`, `shipping_limit_date_id` and
`estimated_delivery_date_id` keep their previously stored values even when
the selected values differ; the payment update leaves `purchase_date_id`
stored as before. -/
theorem C10_conflict_update_frame :
    (∀ (table : List FactOrderItem) (stg : StagingDB) (dc : List DimCustomer)
        (ds : List DimSeller) (dp : List DimProduct) (t e : FactOrderItem),
      ((fact_items_select stg dc ds dp).map factItemKey).Nodup →
      e ∈ fact_items_select stg dc ds dp →
      factItemKey e = factItemKey t →
      table.find? (keyP factItemKey (factItemKey t)) = some t →
      ∃ T2, insert_fact_items table stg dc ds dp = Except.ok T2 ∧
        T2.find? (keyP factItemKey (factItemKey t)) = some (mergeFactItem e t) ∧
        (mergeFactItem e t).customer_sk = t.customer_sk ∧
        (mergeFactItem e t).seller_sk = t.seller_sk ∧
        (mergeFactItem e t).product_sk = t.product_sk ∧
        (mergeFactItem e t).purchase_date_id = t.purchase_date_id ∧
        (mergeFactItem e t).approved_date_id = t.approved_date_id ∧
        (mergeFactItem e t).shipping_limit_date_id = t.shipping_limit_date_id ∧
        (mergeFactItem e t).estimated_delivery_date_id = t.estimated_delivery_date_id ∧
        (mergeFactItem e t).delivered_customer_date_id = e.delivered_customer_date_id)
    ∧ (∀ (table : List FactPayment) (stg : StagingDB) (t e : FactPayment),
      ((fact_payments_select stg).map factPayKey).Nodup →
      e ∈ fact_payments_select stg →
      factPayKey e = factPayKey t →
      table.find? (keyP factPayKey (factPayKey t)) = some t →
      ∃ T2, insert_fact_payments table stg = Except.ok T2 ∧
        T2.find? (keyP factPayKey (factPayKey t)) = some (mergeFactPayment e t) ∧
        (mergeFactPayment e t).purchase_date_id = t.purchase_date_id ∧
        (mergeFactPayment e t).payment_type = e.payment_type ∧
        (mergeFactPayment e t).payment_installments = e.payment_installments ∧
        (mergeFactPayment e t).payment_value = e.payment_value) := by
  constructor
  · intro table stg dc ds dp t e hnd he hek hft
    exact ⟨_, pgUpsert_ok factItemKey factItemKey (fun _ r => r) mergeFactItem table 0
        (fact_items_select stg dc ds dp) hnd,
      pgUpsertFun_find_update factItemKey factItemKey (fun _ r => r) mergeFactItem
        (fun _ _ => rfl) (fun _ _ => rfl) (fact_items_select stg dc ds dp) table 0
        (factItemKey t) e t hnd he hek hft,
      rfl, rfl, rfl, rfl, rfl, rfl, rfl, rfl⟩
  · intro table stg t e hnd he hek hft
    exact ⟨_, pgUpsert_ok factPayKey factPayKey (fun _ r => r) mergeFactPayment table 0
        (fact_payments_select stg) hnd,
      pgUpsertFun_find_update factPayKey factPayKey (fun _ r => r) mergeFactPayment
        (fun _ _ => rfl) (fun _ _ => rfl) (fact_payments_select stg) table 0
        (factPayKey t) e t hnd he hek hft,
      rfl, rfl, rfl, rfl⟩

/-- C10 witness: on the sample conflict, the stored surrogate keys and the
four non-delivered date references stay at their old values even though the
selection carries (possibly different) values, while
`delivered_customer_date_id` is overwritten; the payment's
`purchase_date_id` stays stored. -/
theorem C10_conflict_update_frame_witness :
    (∃ T2, insert_fact_items [wFactOld] wStg [wDimC] [wDimS] [wDimP] = Except.ok T2 ∧
      T2.find? (keyP factItemKey (factItemKey wFactOld)) =
        some (mergeFactItem wFactNew wFactOld) ∧
      (mergeFactItem wFactNew wFactOld).customer_sk = wFactOld.customer_sk ∧
      (mergeFactItem wFactNew wFactOld).seller_sk = wFactOld.seller_sk ∧
      (mergeFactItem wFactNew wFactOld).product_sk = wFactOld.product_sk ∧
      (mergeFactItem wFactNew wFactOld).purchase_date_id = wFactOld.purchase_date_id ∧
      (mergeFactItem wFactNew wFactOld).approved_date_id = wFactOld.approved_date_id ∧
      (mergeFactItem wFactNew wFactOld).shipping_limit_date_id = wFactOld.shipping_limit_date_id ∧
      (mergeFactItem wFactNew wFactOld).estimated_delivery_date_id =
        wFactOld.estimated_delivery_date_id ∧
      (mergeFactItem wFactNew wFactOld).delivered_customer_date_id =
        wFactNew.delivered_customer_date_id)
    ∧ (∃ T2, insert_fact_payments [wPayOld] wStg = Except.ok T2 ∧
      T2.find? (keyP factPayKey (factPayKey wPayOld)) =
        some (mergeFactPayment wPayNew wPayOld) ∧
      (mergeFactPayment wPayNew wPayOld).purchase_date_id = wPayOld.purchase_date_id ∧
      (mergeFactPayment wPayNew wPayOld).payment_type = wPayNew.payment_type ∧
      (mergeFactPayment wPayNew wPayOld).payment_installments = wPayNew.payment_installments ∧
      (mergeFactPayment wPayNew wPayOld).payment_value = wPayNew.payment_value) :=
  ⟨C10_conflict_update_frame.1 [wFactOld] wStg [wDimC] [wDimS] [wDimP] wFactOld wFactNew
      (by decide) (by decide) (by decide) (by decide),
   C10_conflict_update_frame.2 [wPayOld] wStg wPayOld wPayNew
      (by decide) (by decide) (by decide) (by decide)⟩

theorem custMerge_idem (s : RawCustomer) (t : DimCustomer) :
    custMerge s (custMerge s t) = custMerge s t := by
  simp [custMerge, coalesce_absorb]

theorem custMerge_ins (n : Nat) (s : RawCustomer) :
    custMerge s (custIns n s) = custIns n s := by
  simp [custMerge, custIns, coalesce_self]

theorem sellMerge_idem (s : RawSeller) (t : DimSeller) :
    sellMerge s (sellMerge s t) = sellMerge s t := by
  simp [sellMerge, coalesce_absorb]

theorem sellMerge_ins (n : Nat) (s : RawSeller) :
    sellMerge s (sellIns n s) = sellIns n s := by
  simp [sellMerge, sellIns, coalesce_self]

theorem prodMerge_idem (s : ProductSrcRow) (t : DimProduct) :
    prodMerge s (prodMerge s t) = prodMerge s t := by
  simp [prodMerge, coalesce_absorb]

theorem prodMerge_ins (n : Nat) (s : ProductSrcRow) :
    prodMerge s (prodIns n s) = prodIns n s := by
  simp [prodMerge, prodIns, coalesce_self]

/-- C6: idempotence of the Dimension Resolver.  Running the four dimension
upserts twice over the same staging snapshot — with arbitrary surrogate-key
counters in each run — leaves the dimension tables exactly as after the
first run, in every case: the date upsert is `DO NOTHING` and inserts no
key twice; a succeeding `DO UPDATE` upsert re-merges every row to a fixed
point and inserts nothing new; a failing upsert fails again at the same
step, rolls back, and aborts the following steps both times. -/
theorem C6_resolver_idempotent (stg : StagingDB) (st : DWDims)
    (skc sks skp skc2 sks2 skp2 : Nat) :
    dimension_resolver stg skc2 sks2 skp2 (dimension_resolver stg skc sks skp st) =
      dimension_resolver stg skc sks skp st := by
  have hdate : ∀ T : List DimDate,
      upsert_dim_date (upsert_dim_date T stg) stg = upsert_dim_date T stg :=
    fun T => pgUpsertNothing_idem DimDate.date_id id mkDimDate (fun d => rfl)
      (date_source stg) T
  by_cases hc : ((stg.raw_customers.dedup).map RawCustomer.customer_id).Nodup
  · have hcu : ∀ (T : List DimCustomer) (sk : Nat),
        upsert_dim_customer T sk stg.raw_customers =
          Except.ok (pgUpsertFun DimCustomer.customer_id RawCustomer.customer_id
            custIns custMerge T sk stg.raw_customers.dedup) :=
      fun T sk => pgUpsert_ok DimCustomer.customer_id RawCustomer.customer_id
        custIns custMerge T sk stg.raw_customers.dedup hc
    have hcui : ∀ (T : List DimCustomer) (sk sk2 : Nat),
        pgUpsertFun DimCustomer.customer_id RawCustomer.customer_id custIns custMerge
          (pgUpsertFun DimCustomer.customer_id RawCustomer.customer_id custIns custMerge
            T sk stg.raw_customers.dedup) sk2 stg.raw_customers.dedup =
          pgUpsertFun DimCustomer.customer_id RawCustomer.customer_id custIns custMerge
            T sk stg.raw_customers.dedup :=
      fun T sk sk2 => pgUpsertFun_idem DimCustomer.customer_id RawCustomer.customer_id
        custIns custMerge (fun _ _ => rfl) (fun _ _ => rfl) custMerge_idem custMerge_ins
        stg.raw_customers.dedup T sk sk2 hc
    by_cases hs : ((stg.raw_sellers.dedup).map RawSeller.seller_id).Nodup
    · have hsu : ∀ (T : List DimSeller) (sk : Nat),
          upsert_dim_seller T sk stg.raw_sellers =
            Except.ok (pgUpsertFun DimSeller.seller_id RawSeller.seller_id
              sellIns sellMerge T sk stg.raw_sellers.dedup) :=
        fun T sk => pgUpsert_ok DimSeller.seller_id RawSeller.seller_id
          sellIns sellMerge T sk stg.raw_sellers.dedup hs
      have hsui : ∀ (T : List DimSeller) (sk sk2 : Nat),
          pgUpsertFun DimSeller.seller_id RawSeller.seller_id sellIns sellMerge
            (pgUpsertFun DimSeller.seller_id RawSeller.seller_id sellIns sellMerge
              T sk stg.raw_sellers.dedup) sk2 stg.raw_sellers.dedup =
            pgUpsertFun DimSeller.seller_id RawSeller.seller_id sellIns sellMerge
              T sk stg.raw_sellers.dedup :=
        fun T sk sk2 => pgUpsertFun_idem DimSeller.seller_id RawSeller.seller_id
          sellIns sellMerge (fun _ _ => rfl) (fun _ _ => rfl) sellMerge_idem sellMerge_ins
          stg.raw_sellers.dedup T sk sk2 hs
      by_cases hp : ((product_src stg.raw_products stg.raw_category_translation).map
          ProductSrcRow.product_id).Nodup
      · have hpu : ∀ (T : List DimProduct) (sk : Nat),
            upsert_dim_product T sk stg =
              Except.ok (pgUpsertFun DimProduct.product_id ProductSrcRow.product_id
                prodIns prodMerge T sk
                (product_src stg.raw_products stg.raw_category_translation)) :=
          fun T sk => pgUpsert_ok DimProduct.product_id ProductSrcRow.product_id
            prodIns prodMerge T sk
            (product_src stg.raw_products stg.raw_category_translation) hp
        have hpui : ∀ (T : List DimProduct) (sk sk2 : Nat),
            pgUpsertFun DimProduct.product_id ProductSrcRow.product_id prodIns prodMerge
              (pgUpsertFun DimProduct.product_id ProductSrcRow.product_id prodIns prodMerge
                T sk (product_src stg.raw_products stg.raw_category_translation)) sk2
              (product_src stg.raw_products stg.raw_category_translation) =
              pgUpsertFun DimProduct.product_id ProductSrcRow.product_id prodIns prodMerge
                T sk (product_src stg.raw_products stg.raw_category_translation) :=
          fun T sk sk2 => pgUpsertFun_idem DimProduct.product_id ProductSrcRow.product_id
            prodIns prodMerge (fun _ _ => rfl) (fun _ _ => rfl) prodMerge_idem prodMerge_ins
            (product_src stg.raw_products stg.raw_category_translation) T sk sk2 hp
        simp only [dimension_resolver, hcu, hsu, hpu, hcui, hsui, hpui, hdate]
      · have hpe : ∀ (T : List DimProduct) (sk : Nat),
            ∃ m, upsert_dim_product T sk stg = Except.error m :=
          fun T sk => pgUpsert_error DimProduct.product_id ProductSrcRow.product_id
            prodIns prodMerge (fun _ _ => rfl) (fun _ _ => rfl) T sk
            (product_src stg.raw_products stg.raw_category_translation) hp
        rcases hpe st.dim_product skp with ⟨m1, h1⟩
        rcases hpe st.dim_product skp2 with ⟨m2, h2⟩
        simp only [dimension_resolver, hcu, hsu, hcui, hsui, hdate, h1, h2]
    · have hse : ∀ (T : List DimSeller) (sk : Nat),
          ∃ m, upsert_dim_seller T sk stg.raw_sellers = Except.error m :=
        fun T sk => pgUpsert_error DimSeller.seller_id RawSeller.seller_id
          sellIns sellMerge (fun _ _ => rfl) (fun _ _ => rfl) T sk
          stg.raw_sellers.dedup hs
      rcases hse st.dim_seller sks with ⟨m1, h1⟩
      rcases hse st.dim_seller sks2 with ⟨m2, h2⟩
      simp only [dimension_resolver, hcu, hcui, hdate, h1, h2]
  · have hce : ∀ (T : List DimCustomer) (sk : Nat),
        ∃ m, upsert_dim_customer T sk stg.raw_customers = Except.error m :=
      fun T sk => pgUpsert_error DimCustomer.customer_id RawCustomer.customer_id
        custIns custMerge (fun _ _ => rfl) (fun _ _ => rfl) T sk
        stg.raw_customers.dedup hc
    rcases hce st.dim_customer skc with ⟨m1, h1⟩
    rcases hce st.dim_customer skc2 with ⟨m2, h2⟩
    simp only [dimension_resolver, hdate, h1, h2]

/-- C9 witness: the first entry of the uniqueness batch over the sample
staging snapshot is non-negative, and the sample list of 10 keys with 7
distinct values reports exactly 3 duplicates. -/
theorem C9_uniqueness_duplicate_count_witness :
    (0 ≤ (("raw_orders.order_id",
        sqlDupCount (wStg.raw_orders.map RawOrder.order_id)) : String × ℤ).2)
    ∧ sqlDupCount wKeys10 = 3 :=
  ⟨C9_uniqueness_duplicate_count.1 wStg _ (by rw [uniqueness]; exact List.mem_cons_self _ _),
   (C9_uniqueness_duplicate_count.2 wKeys10).2 (by decide) (by decide)⟩

end Olist
